import Mathlib

/-!
Shallow embedding of the Excel sensor-cleaning pipeline
(`excel_cleaner_app.py`, `excel_cleaner_app_2_like.py`,
`streamlit_excel_cleaner_app.py`).

A spreadsheet cell value is missing (`None`/`NaN`/`NaT`), a string, a
number (modelled exactly as a rational) or a timestamp (nanoseconds since
the Unix epoch, as in `datetime64[ns]`).  A column carries a dtype tag as
pandas series do; a frame is an ordered list of named columns.

The per-cell text date parser and the per-cell numeric text parser of
pandas (`pd.to_datetime` on one string, `pd.to_numeric` on one string) are
library behaviour, not code of this repository; they enter the embedding
as explicit oracle parameters, and concrete executable instances are
provided for evaluating witnesses.  The regular-expression engine is
likewise modelled as a compile oracle `String → Option (String → Bool)`
(`re.compile` with `IGNORECASE` either fails or yields a `search`
predicate).
-/

attribute [local semireducible] Rat.add Rat.mul Rat.inv Rat.sub

namespace ExcelClean

inductive Value
  | vnone
  | vstr (s : String)
  | vnum (q : ℚ)
  | vtime (ns : ℤ)
  deriving DecidableEq, Repr

inductive Dtype
  | obj
  | float64
  | datetime64
  deriving DecidableEq, Repr

structure Col where
  dtype : Dtype
  vals : List Value
  deriving DecidableEq, Repr

abbrev Frame := List (String × Col)

abbrev DateParser := String → Option ℤ

abbrev NumParser := String → Option ℚ

def Value.isna : Value → Bool
  | .vnone => true
  | _ => false

/-- Nanoseconds in one day (`pd.Timedelta(days=1)` in `datetime64[ns]`). -/
def nsPerDay : ℤ := 86400000000000

def names (df : Frame) : List String := df.map Prod.fst

def getCol? (df : Frame) (n : String) : Option Col :=
  (df.find? (fun kv => kv.1 = n)).map Prod.snd

def getColD (df : Frame) (n : String) : Col :=
  (getCol? df n).getD ⟨Dtype.obj, []⟩

def setCol (df : Frame) (n : String) (c : Col) : Frame :=
  df.map (fun kv => if kv.1 = n then (kv.1, c) else kv)

def insertAt (df : Frame) (i : Nat) (kv : String × Col) : Frame :=
  df.take i ++ [kv] ++ df.drop i

def indexOfName (df : Frame) (n : String) : Nat :=
  (names df).indexOf n

def countNa (c : Col) : Nat := c.vals.countP (fun v => v.isna)

def countNotNa (c : Col) : Nat := c.vals.countP (fun v => !v.isna)

def isnaAllCol (c : Col) : Bool := c.vals.all (fun v => v.isna)

/-! ### Python / pandas string and series behaviour -/

/-- ASCII whitespace as recognised by Python's `str.strip` and `\s`. -/
def pySpace (c : Char) : Bool :=
  c = ' ' || c = '\t' || c = '\n' || c = '\r' || c = '\x0b' || c = '\x0c'

/-- Python `str.strip()`: drop leading and trailing whitespace. -/
def stripChars (l : List Char) : List Char :=
  ((l.dropWhile pySpace).reverse.dropWhile pySpace).reverse

/-- Python `re.sub(r"\s+", " ", s)`: replace every maximal run of
whitespace characters by a single space. -/
def collapseChars : List Char → List Char
  | [] => []
  | [c] => if pySpace c then [' '] else [c]
  | c :: d :: cs =>
    if pySpace c then
      if pySpace d then collapseChars (d :: cs)
      else ' ' :: collapseChars (d :: cs)
    else c :: collapseChars (d :: cs)

/-- Python `str.lower()` (ASCII model). -/
def pyLower (s : String) : String := String.mk (s.data.map Char.toLower)

/-- Python `str.upper()` (ASCII model). -/
def pyUpper (s : String) : String := String.mk (s.data.map Char.toUpper)

/-- `str(c).replace("\n", " ").strip()` followed by
`re.sub(r"\s+", " ", ·)`, on an already-stringified label. -/
def normString (s : String) : String :=
  String.mk (collapseChars (stripChars (s.data.map (fun c => if c = '\n' then ' ' else c))))

namespace Pd

/-- The valid `datetime64[ns]` range: `Timestamp.min.value` to
`Timestamp.max.value`, that is `-(2^63 - 1)` to `2^63 - 1` nanoseconds
from the epoch (`-2^63` is reserved for `NaT`). -/
def inNsBounds (n : ℤ) : Bool :=
  -9223372036854775807 ≤ n && n ≤ 9223372036854775807

/-- `pd.to_datetime` with `errors="coerce"` on one cell of an object
column: missing stays missing, strings go through the text parser,
numbers are nanoseconds since the epoch — coerced to `NaT` when they
fall outside the `datetime64[ns]` range — and datetime objects pass
through. -/
def toDatetimeCell (p : DateParser) : Value → Value
  | .vnone => .vnone
  | .vstr s => match p s with
    | some n => .vtime n
    | none => .vnone
  | .vnum q => if inNsBounds ⌊q⌋ then .vtime ⌊q⌋ else .vnone
  | .vtime n => .vtime n

/-- `pd.to_datetime(series, errors="coerce", dayfirst=True)`:
a `datetime64` column is returned unchanged, any other column is
converted cell-wise. -/
def toDatetimeCol (p : DateParser) (c : Col) : Col :=
  if c.dtype = Dtype.datetime64 then c
  else ⟨Dtype.datetime64, c.vals.map (toDatetimeCell p)⟩

/-- `pd.to_numeric(·, errors="coerce")` on one cell of an object column. -/
def toNumericCell (pn : NumParser) : Value → Value
  | .vnum q => .vnum q
  | .vstr s => match pn s with
    | some q => .vnum q
    | none => .vnone
  | _ => .vnone

/-- `pd.to_numeric(series, errors="coerce")`: a `datetime64` column
becomes its nanosecond integers, otherwise cell-wise conversion. -/
def toNumericCol (pn : NumParser) (c : Col) : Col :=
  if c.dtype = Dtype.datetime64 then
    ⟨Dtype.float64, c.vals.map (fun v => match v with
      | .vtime n => .vnum (n : ℚ)
      | _ => .vnone)⟩
  else ⟨Dtype.float64, c.vals.map (toNumericCell pn)⟩

/-- One cell of `pd.to_datetime(·, unit="D", origin="1899-12-30")` with
the default `errors="raise"`: a missing numeric gives `NaT`, an in-range
serial gives its day offset from the spreadsheet origin (which lies
25569 days before the Unix epoch), and an out-of-range serial raises
`OutOfBoundsDatetime` — modelled as `none`. -/
def serialCell? : Value → Option Value
  | .vnum q =>
    let n := ⌊q * (nsPerDay : ℚ)⌋ - 25569 * nsPerDay
    if inNsBounds n then some (.vtime n) else none
  | _ => some Value.vnone

def serialVals? : List Value → Option (List Value)
  | [] => some []
  | v :: vs =>
    match serialCell? v, serialVals? vs with
    | some w, some ws => some (w :: ws)
    | _, _ => none

/-- `pd.to_datetime(c, unit="D", origin="1899-12-30")` with the default
`errors="raise"` on a whole column: the serial interpretation of every
cell, or `none` — the exception aborting the conversion as a whole —
when any cell is out of the `datetime64[ns]` range. -/
def serialToDatetime? (c : Col) : Option Col :=
  (serialVals? c.vals).map (fun vs => ⟨Dtype.datetime64, vs⟩)

/-- `s.fillna(s2)`: keep the value of `a` where present, fill from `b`
where `a` is missing. -/
def fillna (a b : Col) : Col :=
  ⟨a.dtype, a.vals.zipWith (fun x y => if x.isna then y else x) b.vals⟩

end Pd

/-- `Timestamp.normalize()`: truncate a timestamp to midnight of its
calendar day (floor division, correct also before 1970). -/
def normalizeTs (n : ℤ) : ℤ := (Int.fdiv n nsPerDay) * nsPerDay

/-- `dt.dropna().iloc[0]` — the first non-missing timestamp of a column
(only used under a guard that excludes the all-missing case). -/
def firstTime (c : Col) : ℤ :=
  match c.vals.findSome? (fun v => match v with
    | .vtime n => some n
    | _ => none) with
  | some n => n
  | none => 0

/-- `(dt - baseline) / pd.Timedelta(days=1)`: fractional days as exact
rationals, missing in, missing out. -/
def daysCol (dt : Col) (baseline : ℤ) : Col :=
  ⟨Dtype.float64, dt.vals.map (fun v => match v with
    | .vtime n => .vnum (((n - baseline : ℤ) : ℚ) / (nsPerDay : ℚ))
    | _ => .vnone)⟩

/-- The fixed meta-column alias set `META_GUESS`. -/
def metaGuess : List String :=
  ["S/N", "S N", "SN", "Date/Time", "Date Time", "Datetime", "Date", "Time", "Days"]

/-- The datetime-header priority list, in source order. -/
def candidatesList : List String :=
  ["Date/Time", "Date Time", "Datetime", "Timestamp", "Date"]

/-! ### `excel_cleaner_app.py` (lines 65–144) -/

namespace App1

/-- One label of `normalize_headers`: `None` becomes `""`, anything else
is stringified (`toStr` is Python's `str`) and normalised. -/
def normalizeLabel {α : Type} (toStr : α → String) : Option α → String
  | none => ""
  | some c => normString (toStr c)

/-- `normalize_headers(columns)` of `excel_cleaner_app.py`. -/
def normalize_headers {α : Type} (toStr : α → String) (columns : List (Option α)) :
    List String :=
  columns.map (normalizeLabel toStr)

/-- `normalize_headers(df.columns)` applied to a frame, whose column
labels are strings. -/
def frameHeaders (df : Frame) : List String :=
  normalize_headers id (df.map (fun kv => some kv.1))

/-- `detect_sensor_columns(df, pattern)` of `excel_cleaner_app.py`.
An invalid pattern surfaces as `Except.error` (the `re.compile` call
raises before the classification loop runs). -/
def detect_sensor_columns (compile : String → Option (String → Bool))
    (df : Frame) (pattern : String) : Except Unit (List String) :=
  let headers := frameHeaders df
  match compile pattern with
  | none => Except.error ()
  | some rx =>
    let metaLower := metaGuess.map pyLower
    Except.ok (headers.filter (fun h => !(metaLower.contains (pyLower h)) && rx h))

/-- The preferred-path double loop of `find_datetime_col`: outer loop
over the candidate list, inner loop over the headers. -/
def scanCandidates (headers : List String) : List String → Option String
  | [] => none
  | c :: cs =>
    match headers.find? (fun h => pyLower h = pyLower c) with
    | some h => some h
    | none => scanCandidates headers cs

/-- The fallback loop of `find_datetime_col`: first header whose column
parses as dates at a rate strictly above 0.7 (`s.notna().mean() > 0.7`,
the denominator being the full column length). -/
def scanRatio (p : DateParser) (df : Frame) : List String → Option String
  | [] => none
  | h :: hs =>
    let s := Pd.toDatetimeCol p (getColD df h)
    if 10 * countNotNa s > 7 * s.vals.length then some h else scanRatio p df hs

/-- `find_datetime_col(df)` of `excel_cleaner_app.py`. -/
def find_datetime_col (p : DateParser) (df : Frame) : Option String :=
  let headers := frameHeaders df
  match scanCandidates headers candidatesList with
  | some h => some h
  | none => scanRatio p df headers

/-- `coerce_datetime(series)` of `excel_cleaner_app.py`: text parse,
then — iff strictly more than half the results are missing
(`s.isna().mean() > 0.5`) — fill the missing slots from the
spreadsheet-serial interpretation of the original values; the
`try/except Exception: pass` around that conversion abandons the whole
fill when any serial raises `OutOfBoundsDatetime`. -/
def coerce_datetime (p : DateParser) (pn : NumParser) (series : Col) : Col :=
  let s := Pd.toDatetimeCol p series
  if 2 * countNa s > s.vals.length then
    match Pd.serialToDatetime? (Pd.toNumericCol pn series) with
    | some s2 => Pd.fillna s s2
    | none => s
  else s

/-- `coerce_numeric(df, cols)` of `excel_cleaner_app.py`. -/
def coerce_numeric (pn : NumParser) (df : Frame) (cols : List String) : Frame :=
  cols.foldl (fun d c =>
    match getCol? d c with
    | none => d
    | some col => setCol d c (Pd.toNumericCol pn col)) df

/-- `add_days_column(df, dt_col, insert_after)` of `excel_cleaner_app.py`
(lines 127–144).  The `insert_after` parameter is accepted but never
read: the insert position always comes from `dt_col`. -/
def add_days_column (p : DateParser) (pn : NumParser) (df : Frame)
    (dt_col : Option String) ( insert_after : Option String) : Frame :=
  match dt_col with
  | none => df
  | some dtc =>
    if !((names df).contains dtc) then df
    else
      let dt0 := getColD df dtc
      let dt := if dt0.dtype = Dtype.datetime64 then dt0 else coerce_datetime p pn dt0
      let df1 := if dt0.dtype = Dtype.datetime64 then df else setCol df dtc dt
      if isnaAllCol dt then df1
      else
        let baseline := normalizeTs (firstTime dt)
        let days := daysCol dt baseline
        let df2 := df1.filter (fun kv => kv.1 ≠ "Days")
        let idx := if (names df2).contains dtc then indexOfName df2 dtc + 1 else df2.length
        insertAt df2 idx ("Days", days)

end App1

/-! ### `excel_cleaner_app_2_like.py` (lines 26–110) -/

namespace App2

/-- `normalize_headers` of `excel_cleaner_app_2_like.py`. -/
def normalize_headers {α : Type} (toStr : α → String) (columns : List (Option α)) :
    List String :=
  columns.map (fun c => match c with
    | none => ""
    | some v => normString (toStr v))

def frameHeaders (df : Frame) : List String :=
  normalize_headers id (df.map (fun kv => some kv.1))

/-- `detect_sensor_columns` of `excel_cleaner_app_2_like.py`. -/
def detect_sensor_columns (compile : String → Option (String → Bool))
    (df : Frame) (pattern : String) : Except Unit (List String) :=
  let headers := frameHeaders df
  match compile pattern with
  | none => Except.error ()
  | some rx =>
    let metaLower := metaGuess.map pyLower
    Except.ok (headers.filter (fun h => !(metaLower.contains (pyLower h)) && rx h))

def scanCandidates (headers : List String) : List String → Option String
  | [] => none
  | c :: cs =>
    match headers.find? (fun h => pyLower h = pyLower c) with
    | some h => some h
    | none => scanCandidates headers cs

def scanRatio (p : DateParser) (df : Frame) : List String → Option String
  | [] => none
  | h :: hs =>
    let s := Pd.toDatetimeCol p (getColD df h)
    if 10 * countNotNa s > 7 * s.vals.length then some h else scanRatio p df hs

/-- `find_datetime_col` of `excel_cleaner_app_2_like.py`. -/
def find_datetime_col (p : DateParser) (df : Frame) : Option String :=
  let headers := frameHeaders df
  match scanCandidates headers candidatesList with
  | some h => some h
  | none => scanRatio p df headers

/-- `coerce_datetime` of `excel_cleaner_app_2_like.py` (same dual-path
strategy, same `try/except` abort of the serial pass). -/
def coerce_datetime (p : DateParser) (pn : NumParser) (series : Col) : Col :=
  let s := Pd.toDatetimeCol p series
  if 2 * countNa s > s.vals.length then
    match Pd.serialToDatetime? (Pd.toNumericCol pn series) with
    | some s2 => Pd.fillna s s2
    | none => s
  else s

/-- `coerce_numeric` of `excel_cleaner_app_2_like.py`. -/
def coerce_numeric (pn : NumParser) (df : Frame) (cols : List String) : Frame :=
  cols.foldl (fun d c =>
    match getCol? d c with
    | none => d
    | some col => setCol d c (Pd.toNumericCol pn col)) df

/-- `add_days_column` of `excel_cleaner_app_2_like.py` (lines 92–110):
identical to `excel_cleaner_app.py`, `insert_after` again unread. -/
def add_days_column (p : DateParser) (pn : NumParser) (df : Frame)
    (dt_col : Option String) ( insert_after : Option String) : Frame :=
  match dt_col with
  | none => df
  | some dtc =>
    if !((names df).contains dtc) then df
    else
      let dt0 := getColD df dtc
      let dt := if dt0.dtype = Dtype.datetime64 then dt0 else coerce_datetime p pn dt0
      let df1 := if dt0.dtype = Dtype.datetime64 then df else setCol df dtc dt
      if isnaAllCol dt then df1
      else
        let baseline := normalizeTs (firstTime dt)
        let days := daysCol dt baseline
        let df2 := df1.filter (fun kv => kv.1 ≠ "Days")
        let idx := if (names df2).contains dtc then indexOfName df2 dtc + 1 else df2.length
        insertAt df2 idx ("Days", days)

end App2

/-! ### `streamlit_excel_cleaner_app.py` (lines 27–133) -/

namespace App3

/-- `normalize_headers` of `streamlit_excel_cleaner_app.py`. -/
def normalize_headers {α : Type} (toStr : α → String) (columns : List (Option α)) :
    List String :=
  columns.map (fun c => match c with
    | none => ""
    | some v => normString (toStr v))

def frameHeaders (df : Frame) : List String :=
  normalize_headers id (df.map (fun kv => some kv.1))

/-- `detect_sensor_columns` of `streamlit_excel_cleaner_app.py` — the
lowered meta set is rebuilt inside the loop there, which yields the same
membership test. -/
def detect_sensor_columns (compile : String → Option (String → Bool))
    (df : Frame) (pattern : String) : Except Unit (List String) :=
  let headers := frameHeaders df
  match compile pattern with
  | none => Except.error ()
  | some rx =>
    Except.ok (headers.filter (fun h =>
      !((metaGuess.map pyLower).contains (pyLower h)) && rx h))

def scanCandidates (headers : List String) : List String → Option String
  | [] => none
  | c :: cs =>
    match headers.find? (fun h => pyLower h = pyLower c) with
    | some h => some h
    | none => scanCandidates headers cs

def scanRatio (p : DateParser) (df : Frame) : List String → Option String
  | [] => none
  | h :: hs =>
    let s := Pd.toDatetimeCol p (getColD df h)
    if 10 * countNotNa s > 7 * s.vals.length then some h else scanRatio p df hs

/-- `find_datetime_col` of `streamlit_excel_cleaner_app.py`. -/
def find_datetime_col (p : DateParser) (df : Frame) : Option String :=
  let headers := frameHeaders df
  match scanCandidates headers candidatesList with
  | some h => some h
  | none => scanRatio p df headers

/-- `coerce_datetime` of `streamlit_excel_cleaner_app.py` (same
dual-path strategy, same `try/except` abort of the serial pass). -/
def coerce_datetime (p : DateParser) (pn : NumParser) (series : Col) : Col :=
  let s := Pd.toDatetimeCol p series
  if 2 * countNa s > s.vals.length then
    match Pd.serialToDatetime? (Pd.toNumericCol pn series) with
    | some s2 => Pd.fillna s s2
    | none => s
  else s

/-- `coerce_numeric` of `streamlit_excel_cleaner_app.py`. -/
def coerce_numeric (pn : NumParser) (df : Frame) (cols : List String) : Frame :=
  cols.foldl (fun d c =>
    match getCol? d c with
    | none => d
    | some col => setCol d c (Pd.toNumericCol pn col)) df

/-- `add_days_column` of `streamlit_excel_cleaner_app.py` (lines
106–133).  Differences from the other two files: the coerced datetime
values are not written back into the frame, and `insert_after` is
honoured when truthy (non-`None`, non-empty) and present. -/
def add_days_column (p : DateParser) (pn : NumParser) (df : Frame)
    (dt_col : Option String) ( insert_after : Option String) : Frame :=
  match dt_col with
  | none => df
  | some dtc =>
    if !((names df).contains dtc) then df
    else
      let dt0 := getColD df dtc
      let dt := if dt0.dtype = Dtype.datetime64 then dt0 else coerce_datetime p pn dt0
      if isnaAllCol dt then df
      else
        let baseline := normalizeTs (firstTime dt)
        let days := daysCol dt baseline
        let df2 := df.filter (fun kv => kv.1 ≠ "Days")
        let idx :=
          match insert_after with
          | some ia =>
            if ia ≠ "" && (names df2).contains ia then indexOfName df2 ia + 1
            else if (names df2).contains dtc then indexOfName df2 dtc + 1
            else df2.length
          | none =>
            if (names df2).contains dtc then indexOfName df2 dtc + 1
            else df2.length
        insertAt df2 idx ("Days", days)

end App3

/-! ### Concrete oracle instances, for evaluating witnesses -/

def digitsToNat? (l : List Char) : Option Nat :=
  if l ≠ [] && l.all Char.isDigit then
    some (l.foldl (fun acc c => 10 * acc + (c.toNat - 48)) 0)
  else none

/-- Days from the Unix epoch to `y-m-d` (proleptic Gregorian; the
standard civil-from-days inverse). -/
def daysFromCivil (y m d : ℤ) : ℤ :=
  let y := if m ≤ 2 then y - 1 else y
  let era := Int.fdiv y 400
  let yoe := y - era * 400
  let doy := (153 * (if m > 2 then m - 3 else m + 9) + 2) / 5 + d - 1
  let doe := yoe * 365 + yoe / 4 - yoe / 100 + doy
  era * 146097 + doe - 719468

/-- Split a character list on `'/'` (Python `s.split("/")`). -/
def splitSlash : List Char → List (List Char)
  | [] => [[]]
  | c :: cs =>
    let r := splitSlash cs
    if c = '/' then [] :: r
    else
      match r with
      | [] => [[c]]
      | g :: gs => (c :: g) :: gs

/-- A concrete day-first `D/M/YYYY` text-date parser, standing in for
pandas' text parser on the inputs used in witnesses; midnight timestamps. -/
def simpleParseDate (s : String) : Option ℤ :=
  match splitSlash s.data with
  | [ds, ms, ys] =>
    match digitsToNat? ds, digitsToNat? ms, digitsToNat? ys with
    | some d, some m, some y =>
      if 1 ≤ d && d ≤ 31 && 1 ≤ m && m ≤ 12 && 1000 ≤ y then
        some (daysFromCivil y m d * nsPerDay)
      else none
    | _, _, _ => none
  | _ => none

/-- A concrete numeric text parser (optionally signed decimal integers),
standing in for `pd.to_numeric`'s string handling in witnesses. -/
def simpleParseNum (s : String) : Option ℚ :=
  match s.data with
  | '-' :: rest => (digitsToNat? rest).map (fun n => -(n : ℚ))
  | l => (digitsToNat? l).map (fun n => (n : ℚ))

/-- A concrete compile oracle covering the default sensor pattern
`^(ALARM_|.*_C$)` with `re.IGNORECASE`; every other pattern string is
treated as failing to compile. -/
def simpleCompile : String → Option (String → Bool) := fun pat =>
  if pat = "^(ALARM_|.*_C$)" then
    some (fun h => List.isPrefixOf "ALARM_".data (pyUpper h).data || List.isPrefixOf "C_".data (pyUpper h).data.reverse)
  else none

/-! ### `DataFrame.sort_values` with the default `kind="quicksort"`

pandas sorts a single-key frame through `nargsort`: missing keys are
masked out, the remaining values go through numpy `argsort` with the
requested kind, and the missing positions are appended at the end
(`na_position="last"`).  numpy's `quicksort` for `argsort` is an
introsort (`aquicksort` in `npysort/quicksort.c.src`): median-of-3
quicksort down to segments of at most 15 elements, insertion sort on the
small segments, heapsort once a depth budget of `2*msb(n)` is spent.  It
is transcribed here exactly, because its (non-stable) treatment of equal
keys is what claim C1 is about. -/

namespace Np

def lt (v : Array ℤ) (t : Array Nat) (i j : Nat) : Bool :=
  v.getD (t.getD i 0) 0 < v.getD (t.getD j 0) 0

def ltv (v : Array ℤ) (t : Array Nat) (vp : ℤ) (i : Nat) : Bool :=
  v.getD (t.getD i 0) 0 < vp

def vtl (v : Array ℤ) (t : Array Nat) (vp : ℤ) (i : Nat) : Bool :=
  vp < v.getD (t.getD i 0) 0

def swap (t : Array Nat) (i j : Nat) : Array Nat :=
  let a := t.getD i 0
  let b := t.getD j 0
  (t.setD i b).setD j a

/-- `do ++pi; while LT(v[*pi], vp);` -/
def scanUp (v : Array ℤ) (t : Array Nat) (vp : ℤ) (i : Nat) : Nat → Nat
  | 0 => i + 1
  | fuel + 1 =>
    let i := i + 1
    if ltv v t vp i then scanUp v t vp i fuel else i

/-- `do --pj; while LT(vp, v[*pj]);` -/
def scanDown (v : Array ℤ) (t : Array Nat) (vp : ℤ) (j : Nat) : Nat → Nat
  | 0 => j - 1
  | fuel + 1 =>
    let j := j - 1
    if vtl v t vp j then scanDown v t vp j fuel else j

/-- The partition exchange loop; returns the updated order and `pi`. -/
def partLoop (v : Array ℤ) (vp : ℤ) (t : Array Nat) (i j : Nat) :
    Nat → Array Nat × Nat
  | 0 => (t, i)
  | fuel + 1 =>
    let i := scanUp v t vp i (j + 2)
    let j := scanDown v t vp j (j + 2)
    if i ≥ j then (t, i)
    else partLoop v vp (swap t i j) i j fuel

/-- One `aquicksort` partition step on the inclusive segment `[pl, pr]`:
median-of-3 pivot selection, pivot parked at `pr - 1`, exchange scan,
pivot swapped back to the split point. -/
def partitionSeg (v : Array ℤ) (t : Array Nat) (pl pr : Nat) : Array Nat × Nat :=
  let pm := pl + (pr - pl) / 2
  let t := if lt v t pm pl then swap t pm pl else t
  let t := if lt v t pr pm then swap t pr pm else t
  let t := if lt v t pm pl then swap t pm pl else t
  let vp := v.getD (t.getD pm 0) 0
  let t := swap t pm (pr - 1)
  let (t, pi) := partLoop v vp t pl (pr - 1) (pr + 2)
  let t := swap t pi (pr - 1)
  (t, pi)

/-- The argsort insertion sort of `aquicksort` on the inclusive segment
`[pl, pr]` (stable; used for segments of at most 16 elements). -/
def insertStep (v : Array ℤ) (vi : Nat) (vp : ℤ) (t : Array Nat)
    (pj : Nat) (pl : Nat) : Nat → Array Nat
  | 0 => t.setD pj vi
  | fuel + 1 =>
    if pj > pl && decide (vp < v.getD (t.getD (pj - 1) 0) 0) then
      insertStep v vi vp (t.setD pj (t.getD (pj - 1) 0)) (pj - 1) pl fuel
    else t.setD pj vi

def insertionSeg (v : Array ℤ) (t : Array Nat) (pl pr : Nat) : Array Nat :=
  (List.range' (pl + 1) (pr - pl)).foldl
    (fun t pi =>
      let vi := t.getD pi 0
      let vp := v.getD vi 0
      insertStep v vi vp t pi pl (pi + 1))
    t

/-- One sift of `aheapsort` (1-based heap indices over the segment that
starts at array offset `base`; index `k` lives at `base + k - 1`). -/
def siftDown (v : Array ℤ) (t : Array Nat) (base : Nat) (tmp : Nat)
    (i j n : Nat) : Nat → Array Nat
  | 0 => t.setD (base + i - 1) tmp
  | fuel + 1 =>
    if j ≤ n then
      let j := if j < n &&
          decide (v.getD (t.getD (base + j - 1) 0) 0 <
                  v.getD (t.getD (base + j) 0) 0) then j + 1 else j
      if v.getD tmp 0 < v.getD (t.getD (base + j - 1) 0) 0 then
        siftDown v (t.setD (base + i - 1) (t.getD (base + j - 1) 0))
          base tmp j (2 * j) n fuel
      else t.setD (base + i - 1) tmp
    else t.setD (base + i - 1) tmp

/-- `aheapsort` on the `n`-element segment starting at `base`. -/
def heapsortSeg (v : Array ℤ) (t : Array Nat) (base n : Nat) : Array Nat :=
  let t := (List.range (n / 2)).foldl
    (fun t k =>
      let l := n / 2 - k
      siftDown v t base (t.getD (base + l - 1) 0) l (2 * l) n (n + 2))
    t
  (List.range (n - 1)).foldl
    (fun t k =>
      let m := n - k
      let tmp := t.getD (base + m - 1) 0
      let t := t.setD (base + m - 1) (t.getD base 0)
      siftDown v t base tmp 1 2 (m - 1) (n + 2))
    t

/-- The driver loop of `aquicksort`: explicit work stack, one shared
depth budget, large segments partitioned (heapsort once the budget is
negative), small segments insertion-sorted. -/
def quickLoop (v : Array ℤ) : Array Nat → Nat → Nat → List (Nat × Nat) → ℤ →
    Nat → Array Nat
  | t, _, _, _, _, 0 => t
  | t, pl, pr, stack, depth, fuel + 1 =>
    if pr - pl > 15 then
      if depth < 0 then
        let t := heapsortSeg v t pl (pr - pl + 1)
        match stack with
        | [] => t
        | (l, r) :: rest => quickLoop v t l r rest depth fuel
      else
        let (t, pi) := partitionSeg v t pl pr
        if pi - pl < pr - pi then
          quickLoop v t pl (pi - 1) ((pi + 1, pr) :: stack) (depth - 1) fuel
        else
          quickLoop v t (pi + 1) pr ((pl, pi - 1) :: stack) (depth - 1) fuel
    else
      let t := insertionSeg v t pl pr
      match stack with
      | [] => t
      | (l, r) :: rest => quickLoop v t l r rest depth fuel

/-- `npy_get_msb`: position of the most significant bit (fuelled,
kernel-computable formulation of `⌊log₂ n⌋`). -/
def msbFuel : Nat → Nat → Nat
  | 0, _ => 0
  | fuel + 1, n => if 2 ≤ n then msbFuel fuel (n / 2) + 1 else 0

/-- numpy `argsort(values, kind="quicksort")` (`aquicksort`). -/
def argsortQuick (keys : List ℤ) : List Nat :=
  let n := keys.length
  if n ≤ 1 then List.range n
  else
    let v : Array ℤ := keys.toArray
    let t : Array Nat := (List.range n).toArray
    (quickLoop v t 0 (n - 1) [] (2 * msbFuel n n : ℕ) (4 * n * n + 16)).toList

end Np

/-- The sort key on one cell of the `by` column: a timestamp, or masked
out when missing. -/
def colKey : Value → Option ℤ
  | .vtime n => some n
  | _ => none

/-- pandas `nargsort` (`na_position="last"`): indices of non-missing
keys ordered by numpy argsort of the key values, then the missing-key
indices in original order. -/
def nargsortIdx (keys : List (Option ℤ)) : List Nat :=
  let n := keys.length
  let nonNa := (List.range n).filter (fun i => (keys.getD i none).isSome)
  let naIdx := (List.range n).filter (fun i => !(keys.getD i none).isSome)
  let vals := nonNa.map (fun i => (keys.getD i none).getD 0)
  let perm := Np.argsortQuick vals
  perm.map (fun j => nonNa.getD j 0) ++ naIdx

/-- `df.sort_values(b).reset_index(drop=True)` with the defaults
`kind="quicksort"`, `ascending=True`, `na_position="last"`. -/
def sortValues (df : Frame) (b : String) : Frame :=
  let keys := (getColD df b).vals.map colKey
  let idx := nargsortIdx keys
  df.map (fun kv => (kv.1, ⟨kv.2.dtype, idx.map (fun i => kv.2.vals.getD i Value.vnone)⟩))

/-- Row count of a rectangular frame. -/
def rowCount (df : Frame) : Nat :=
  match df with
  | [] => 0
  | kv :: _ => kv.2.vals.length

/-- `df.dropna(how="all").reset_index(drop=True)`: keep the rows with at
least one non-missing cell, in order. -/
def dropAllNaRows (df : Frame) : Frame :=
  let keep := (List.range (rowCount df)).filter
    (fun i => !(df.all (fun kv => (kv.2.vals.getD i Value.vnone).isna)))
  df.map (fun kv => (kv.1, ⟨kv.2.dtype, keep.map (fun i => kv.2.vals.getD i Value.vnone)⟩))

/-- The cleaning pipeline of `excel_cleaner_app.py` (lines 198–240):
normalise headers, detect columns, coerce the datetime column, drop
all-missing rows unless kept, coerce sensors, insert `Days`
(`insert_after=dt_col`), and sort by the datetime column when it is
detected, truthy and of timestamp dtype.  A pattern that fails to
compile propagates as `Except.error`. -/
def App1.pipeline (p : DateParser) (pn : NumParser)
    (compile : String → Option (String → Bool)) (raw0 : Frame)
    (pattern : String) (keepBlank : Bool) : Except Unit Frame :=
  let raw : Frame := raw0.map (fun kv => (normString kv.1, kv.2))
  let dtCol := App1.find_datetime_col p raw
  match App1.detect_sensor_columns compile raw pattern with
  | Except.error e => Except.error e
  | Except.ok sensors =>
    let c1 := match dtCol with
      | some d =>
        match getCol? raw d with
        | some col => setCol raw d (App1.coerce_datetime p pn col)
        | none => raw
      | none => raw
    let c2 := if keepBlank then c1 else dropAllNaRows c1
    let c3 := App1.coerce_numeric pn c2 sensors
    let c4 := App1.add_days_column p pn c3 dtCol dtCol
    let c5 := match dtCol with
      | some d =>
        if d ≠ "" && (getColD c4 d).dtype = Dtype.datetime64 then sortValues c4 d else c4
      | none => c4
    Except.ok c5

/-! ### Abbreviations and concrete frames used by the claim theorems -/

/-- The effective datetime column inside `add_days_column`: the stored
column when it already has timestamp dtype, otherwise its coercion. -/
def effDt (p : DateParser) (pn : NumParser) (df : Frame) (dtc : String) : Col :=
  if (getColD df dtc).dtype = Dtype.datetime64 then getColD df dtc
  else App1.coerce_datetime p pn (getColD df dtc)

/-- The derived `Days` column of `add_days_column`. -/
def daysOf (p : DateParser) (pn : NumParser) (df : Frame) (dtc : String) : Col :=
  daysCol (effDt p pn df dtc) (normalizeTs (firstTime (effDt p pn df dtc)))

/-- The frame after the write-back step of `excel_cleaner_app.py`'s
`add_days_column` (`df[dt_col] = dt`, performed only when the stored
column does not already have timestamp dtype). -/
def app1Written (p : DateParser) (pn : NumParser) (df : Frame) (dtc : String) : Frame :=
  if (getColD df dtc).dtype = Dtype.datetime64 then df
  else setCol df dtc (App1.coerce_datetime p pn (getColD df dtc))

/-- Insert the name `"Days"` immediately after the first occurrence of
`a` in a name list. -/
def insertDaysAfter (l : List String) (a : String) : List String :=
  l.take (l.indexOf a + 1) ++ ["Days"] ++ l.drop (l.indexOf a + 1)

/-- Two-column frame for exercising the `insert_after` parameter. -/
def c2frame : Frame :=
  [("Date", ⟨Dtype.obj, [Value.vstr "01/01/2020"]⟩),
   ("B", ⟨Dtype.obj, [Value.vnum 5]⟩)]

/-- A frame whose datetime column is itself named `"Days"`. -/
def c5frame : Frame :=
  [("Days", ⟨Dtype.obj, [Value.vstr "01/01/2020", Value.vstr "02/01/2020"]⟩),
   ("X", ⟨Dtype.obj, [Value.vnum 1, Value.vnum 2]⟩)]

/-- One column of five cells: three parseable dates and two missing
cells, so the parse rate is 1.0 over non-empty cells but 0.6 over all
cells. -/
def c3frame : Frame :=
  [("A", ⟨Dtype.obj, [Value.vstr "01/01/2020", Value.vstr "02/01/2020",
                      Value.vstr "03/01/2020", Value.vnone, Value.vnone]⟩)]

/-- A frame holding both a `Date`-named and a `Timestamp`-named column,
with `Date` first in table order. -/
def c6frame : Frame :=
  [("Date", ⟨Dtype.obj, [Value.vstr "01/01/2020"]⟩),
   ("Timestamp", ⟨Dtype.obj, [Value.vstr "02/01/2020"]⟩)]

/-- Seventeen rows with identical timestamps and a distinguishing sensor
column: enough equal keys to push numpy's default quicksort into its
partitioning phase. -/
def c1frame : Frame :=
  [("Date/Time", ⟨Dtype.obj, (List.range 17).map (fun _ => Value.vstr "01/01/2020")⟩),
   ("VAL_C", ⟨Dtype.obj, (List.range 17).map (fun i => Value.vnum i)⟩)]

/-- Shape of a normalized header's character list: every whitespace
character is a single plain space, no two adjacent whitespace
characters, and no leading or trailing whitespace. -/
def NormShape (l : List Char) : Prop :=
  (∀ c ∈ l, pySpace c = true → c = ' ') ∧
  List.Chain' (fun a b => ¬(pySpace a = true ∧ pySpace b = true)) l ∧
  (∀ c, l.head? = some c → pySpace c = false) ∧
  (∀ c, l.getLast? = some c → pySpace c = false)

/-! ### Shared lemmas about the frame operations -/

theorem length_toDatetimeCol (p : DateParser) (c : Col) :
    (Pd.toDatetimeCol p c).vals.length = c.vals.length := by
  unfold Pd.toDatetimeCol
  split <;> simp

theorem dtype_toDatetimeCol (p : DateParser) (c : Col) :
    (Pd.toDatetimeCol p c).dtype = Dtype.datetime64 := by
  unfold Pd.toDatetimeCol
  split
  · assumption
  · rfl

theorem dtype_coerce_datetime (p : DateParser) (pn : NumParser) (c : Col) :
    (App1.coerce_datetime p pn c).dtype = Dtype.datetime64 := by
  dsimp only [App1.coerce_datetime]
  split
  · split
    · exact dtype_toDatetimeCol p c
    · exact dtype_toDatetimeCol p c
  · exact dtype_toDatetimeCol p c

theorem names_cons (kv : String × Col) (rest : Frame) :
    names (kv :: rest) = kv.1 :: names rest := rfl

theorem getCol?_cons (kv : String × Col) (rest : Frame) (n : String) :
    getCol? (kv :: rest) n = if kv.1 = n then some kv.2 else getCol? rest n := by
  by_cases h : kv.1 = n <;> simp [getCol?, List.find?_cons, h]

theorem names_setCol (df : Frame) (n : String) (c : Col) :
    names (setCol df n c) = names df := by
  induction df with
  | nil => rfl
  | cons kv rest ih =>
    by_cases h : kv.1 = n <;> simp [setCol, names, h] at * <;> exact ih

theorem names_insertAt (df : Frame) (i : Nat) (kv : String × Col) :
    names (insertAt df i kv) =
      (names df).take i ++ [kv.1] ++ (names df).drop i := by
  simp [insertAt, names, ← List.map_take, ← List.map_drop]

theorem names_filterDays (df : Frame) :
    names (df.filter (fun kv => kv.1 ≠ "Days")) =
      (names df).filter (fun s => s ≠ "Days") := by
  induction df with
  | nil => rfl
  | cons kv rest ih =>
    by_cases h : kv.1 = "Days" <;>
      simp [names_cons, List.filter_cons, h] <;> simpa [names] using ih

/-- `names_filterDays` restated in the boolean normal form that `simp`
produces for the filter predicate. -/
theorem names_filterDaysB (df : Frame) :
    names (df.filter (fun kv => !decide (kv.1 = "Days"))) =
      (names df).filter (fun s => !decide (s = "Days")) := by
  simpa using names_filterDays df

theorem getCol?_filterDays (df : Frame) (n : String) (hn : n ≠ "Days") :
    getCol? (df.filter (fun kv => kv.1 ≠ "Days")) n = getCol? df n := by
  induction df with
  | nil => rfl
  | cons kv rest ih =>
    by_cases h : kv.1 = "Days"
    · have h2 : kv.1 ≠ n := fun he => hn (he ▸ h)
      rw [List.filter_cons, if_neg (by simp [h]), getCol?_cons, if_neg h2]
      exact ih
    · rw [List.filter_cons, if_pos (by simp [h]), getCol?_cons, getCol?_cons]
      by_cases h2 : kv.1 = n
      · rw [if_pos h2, if_pos h2]
      · rw [if_neg h2, if_neg h2]
        exact ih

theorem getCol?_insertAt_ne (df : Frame) (i : Nat) (kv : String × Col) (n : String)
    (hn : kv.1 ≠ n) : getCol? (insertAt df i kv) n = getCol? df n := by
  unfold insertAt getCol?
  rw [List.find?_append, List.find?_append]
  have hkv : List.find? (fun x => decide (x.1 = n)) [kv] = none := by
    simp [List.find?_cons, hn]
  rw [hkv]
  conv_rhs => rw [← List.take_append_drop i df]
  rw [List.find?_append]
  cases List.find? (fun x => decide (x.1 = n)) (List.take i df) <;> simp

theorem getCol?_setCol_self (df : Frame) (n : String) (c : Col) (h : n ∈ names df) :
    getCol? (setCol df n c) n = some c := by
  induction df with
  | nil => simp [names] at h
  | cons kv rest ih =>
    by_cases he : kv.1 = n
    · simp [setCol, getCol?_cons, he]
    · have hr : n ∈ names rest := by
        rcases (by simpa [names_cons] using h : n = kv.1 ∨ n ∈ names rest) with h' | h'
        · exact absurd h'.symm he
        · exact h'
      simp only [setCol, List.map_cons, if_neg he]
      rw [getCol?_cons, if_neg he]
      simpa [setCol] using ih hr

theorem getCol?_mem (df : Frame) (n : String) (c : Col)
    (hnd : (names df).Nodup) (h : (n, c) ∈ df) : getCol? df n = some c := by
  induction df with
  | nil => simp at h
  | cons kv rest ih =>
    rcases List.mem_cons.mp h with h | h
    · rw [← h, getCol?_cons, if_pos rfl]
    · have hne : kv.1 ≠ n := by
        intro he
        have hmem : n ∈ names rest := by
          have := List.mem_map_of_mem Prod.fst h
          simpa [names] using this
        have := (by simpa [names_cons] using hnd : ¬kv.1 ∈ names rest ∧ (names rest).Nodup)
        exact this.1 (he ▸ hmem)
      rw [getCol?_cons, if_neg hne]
      exact ih (by simpa [names_cons] using hnd : ¬kv.1 ∈ names rest ∧ (names rest).Nodup).2 h

theorem getCol?_eq_some_of_contains (df : Frame) (n : String)
    (h : (names df).contains n) : ∃ c, getCol? df n = some c := by
  induction df with
  | nil => simp [names] at h
  | cons kv rest ih =>
    by_cases he : kv.1 = n
    · exact ⟨kv.2, by rw [getCol?_cons, if_pos he]⟩
    · have hr : (names rest).contains n := by
        have := (by simpa [names_cons] using h : n = kv.1 ∨ (names rest).contains n)
        rcases this with h' | h'
        · exact absurd h'.symm he
        · exact h'
      obtain ⟨c, hc⟩ := ih hr
      exact ⟨c, by rw [getCol?_cons, if_neg he]; exact hc⟩

theorem contains_of_mem {l : List String} {a : String} (h : a ∈ l) :
    l.contains a = true := by
  simpa using h

theorem dtype_effDt (p : DateParser) (pn : NumParser) (df : Frame) (dtc : String) :
    (effDt p pn df dtc).dtype = Dtype.datetime64 := by
  unfold effDt
  split
  · assumption
  · exact dtype_coerce_datetime p pn _

theorem names_app1Written (p : DateParser) (pn : NumParser) (df : Frame) (dtc : String) :
    names (app1Written p pn df dtc) = names df := by
  unfold app1Written
  split
  · rfl
  · exact names_setCol df dtc _

/-- The productive branch of `excel_cleaner_app.py`'s `add_days_column`,
written as one splice: write back the coerced column if needed, drop any
existing `Days` column, and insert the derived one right after the
datetime column. -/
theorem add1_shape (p : DateParser) (pn : NumParser) (df : Frame) (dtc : String)
    (ia : Option String) (hdt : dtc ∈ names df) (hdtD : dtc ≠ "Days")
    (hprod : isnaAllCol (effDt p pn df dtc) = false) :
    App1.add_days_column p pn df (some dtc) ia =
      insertAt ((app1Written p pn df dtc).filter (fun kv => kv.1 ≠ "Days"))
        (((names df).filter (fun s => s ≠ "Days")).indexOf dtc + 1)
        ("Days", daysOf p pn df dtc) := by
  have hc : (names df).contains dtc = true := contains_of_mem hdt
  have hdf : dtc ∈ (names df).filter (fun s => s ≠ "Days") :=
    List.mem_filter.mpr ⟨hdt, by simpa using hdtD⟩
  unfold App1.add_days_column
  dsimp only
  rw [hc]
  simp only [Bool.not_true, if_neg (Bool.false_ne_true)]
  by_cases hdty : (getColD df dtc).dtype = Dtype.datetime64
  · rw [if_pos hdty, if_pos hdty]
    have hpr : isnaAllCol (getColD df dtc) = false := by
      have h0 := hprod
      unfold effDt at h0
      rw [if_pos hdty] at h0
      exact h0
    rw [if_neg (by simp [hpr])]
    have hcc : (names (df.filter (fun kv => kv.1 ≠ "Days"))).contains dtc = true := by
      rw [names_filterDays]
      exact contains_of_mem hdf
    rw [hcc]
    unfold app1Written daysOf effDt
    simp [hdty, indexOfName, names_filterDays, names_filterDaysB]
  · rw [if_neg hdty, if_neg hdty]
    have hpr : isnaAllCol (App1.coerce_datetime p pn (getColD df dtc)) = false := by
      have h0 := hprod
      unfold effDt at h0
      rw [if_neg hdty] at h0
      exact h0
    rw [if_neg (by simp [hpr])]
    have hcc : (names ((setCol df dtc (App1.coerce_datetime p pn (getColD df dtc))).filter
        (fun kv => kv.1 ≠ "Days"))).contains dtc = true := by
      rw [names_filterDays, names_setCol]
      exact contains_of_mem hdf
    rw [hcc]
    unfold app1Written daysOf effDt
    simp [hdty, indexOfName, names_filterDays, names_filterDaysB, names_setCol]

/-- `excel_cleaner_app_2_like.py`'s `add_days_column` is definitionally
the same function as `excel_cleaner_app.py`'s. -/
theorem app2_add_days_eq_app1 : @App2.add_days_column = @App1.add_days_column := rfl

theorem app3_coerce_eq_app1 : @App3.coerce_datetime = @App1.coerce_datetime := rfl

/-- `excel_cleaner_app.py`'s `add_days_column` in the non-productive
all-missing case: only the write-back happens. -/
theorem add1_of_isnaAll (p : DateParser) (pn : NumParser) (df : Frame) (dtc : String)
    (ia : Option String) (hdt : dtc ∈ names df)
    (hprod : isnaAllCol (effDt p pn df dtc) = true) :
    App1.add_days_column p pn df (some dtc) ia = app1Written p pn df dtc := by
  have hc : (names df).contains dtc = true := contains_of_mem hdt
  unfold App1.add_days_column
  dsimp only
  rw [hc]
  simp only [Bool.not_true, if_neg (Bool.false_ne_true)]
  unfold effDt at hprod
  unfold app1Written
  by_cases hdty : (getColD df dtc).dtype = Dtype.datetime64 <;>
    simp only [hdty, if_true, if_false, ite_true, ite_false] at hprod ⊢ <;>
    rw [if_pos hprod]

/-- `streamlit_excel_cleaner_app.py`'s `add_days_column` in the
non-productive all-missing case: the frame is returned untouched. -/
theorem add3_of_isnaAll (p : DateParser) (pn : NumParser) (df : Frame) (dtc : String)
    (ia : Option String) (hprod : isnaAllCol (effDt p pn df dtc) = true) :
    App3.add_days_column p pn df (some dtc) ia = df := by
  unfold App3.add_days_column
  dsimp only
  by_cases hc : (names df).contains dtc
  · rw [hc]
    simp only [Bool.not_true, if_neg (Bool.false_ne_true)]
    rw [show @App3.coerce_datetime = @App1.coerce_datetime from rfl]
    unfold effDt at hprod
    by_cases hdty : (getColD df dtc).dtype = Dtype.datetime64 <;>
      simp only [hdty, if_true, if_false, ite_true, ite_false] at hprod ⊢ <;>
      rw [if_pos hprod]
  · simp only [Bool.not_eq_true] at hc
    rw [hc]
    simp

/-- The productive branch of `streamlit_excel_cleaner_app.py`'s
`add_days_column`, for an arbitrary `insert_after` argument: no
write-back, some splice position. -/
theorem add3_shape_any (p : DateParser) (pn : NumParser) (df : Frame) (dtc : String)
    (ia : Option String) (hdt : dtc ∈ names df)
    (hprod : isnaAllCol (effDt p pn df dtc) = false) :
    ∃ idx, App3.add_days_column p pn df (some dtc) ia =
      insertAt (df.filter (fun kv => kv.1 ≠ "Days")) idx ("Days", daysOf p pn df dtc) := by
  have hc : (names df).contains dtc = true := contains_of_mem hdt
  unfold App3.add_days_column
  dsimp only
  rw [hc]
  simp only [Bool.not_true, if_neg (Bool.false_ne_true)]
  rw [show @App3.coerce_datetime = @App1.coerce_datetime from rfl]
  unfold effDt at hprod
  unfold daysOf effDt
  by_cases hdty : (getColD df dtc).dtype = Dtype.datetime64 <;>
    simp only [hdty, if_true, if_false, ite_true, ite_false] at hprod ⊢ <;>
    rw [if_neg (by simp [hprod])] <;>
    exact ⟨_, rfl⟩

/-- The splice position of `streamlit_excel_cleaner_app.py`'s
`add_days_column` when a truthy `insert_after` target is present: right
after the target column. -/
theorem add3_shape_target (p : DateParser) (pn : NumParser) (df : Frame) (dtc ia : String)
    (hdt : dtc ∈ names df) (hia : ia ∈ names df) (hiaD : ia ≠ "Days") (hiaE : ia ≠ "")
    (hprod : isnaAllCol (effDt p pn df dtc) = false) :
    App3.add_days_column p pn df (some dtc) (some ia) =
      insertAt (df.filter (fun kv => kv.1 ≠ "Days"))
        (((names df).filter (fun s => s ≠ "Days")).indexOf ia + 1)
        ("Days", daysOf p pn df dtc) := by
  have hc : (names df).contains dtc = true := contains_of_mem hdt
  have hia2 : ia ∈ (names df).filter (fun s => s ≠ "Days") :=
    List.mem_filter.mpr ⟨hia, by simpa using hiaD⟩
  have hcc : (names (df.filter (fun kv => kv.1 ≠ "Days"))).contains ia = true := by
    rw [names_filterDays]
    exact contains_of_mem hia2
  unfold App3.add_days_column
  dsimp only
  rw [hc]
  simp only [Bool.not_true, if_neg (Bool.false_ne_true)]
  rw [show @App3.coerce_datetime = @App1.coerce_datetime from rfl]
  unfold effDt at hprod
  unfold daysOf effDt
  by_cases hdty : (getColD df dtc).dtype = Dtype.datetime64 <;>
    simp only [hdty, if_true, if_false, ite_true, ite_false] at hprod ⊢ <;>
    rw [if_neg (by simp [hprod]), if_pos (by
      simp [hiaE, names_filterDaysB]
      simpa using hia2)] <;>
    simp [indexOfName, names_filterDays, names_filterDaysB]

/-- The splice position of `streamlit_excel_cleaner_app.py`'s
`add_days_column` when no `insert_after` target is given: right after
the datetime column. -/
theorem add3_shape_none (p : DateParser) (pn : NumParser) (df : Frame) (dtc : String)
    (hdt : dtc ∈ names df) (hdtD : dtc ≠ "Days")
    (hprod : isnaAllCol (effDt p pn df dtc) = false) :
    App3.add_days_column p pn df (some dtc) none =
      insertAt (df.filter (fun kv => kv.1 ≠ "Days"))
        (((names df).filter (fun s => s ≠ "Days")).indexOf dtc + 1)
        ("Days", daysOf p pn df dtc) := by
  have hc : (names df).contains dtc = true := contains_of_mem hdt
  have hdf : dtc ∈ (names df).filter (fun s => s ≠ "Days") :=
    List.mem_filter.mpr ⟨hdt, by simpa using hdtD⟩
  have hcc : (names (df.filter (fun kv => kv.1 ≠ "Days"))).contains dtc = true := by
    rw [names_filterDays]
    exact contains_of_mem hdf
  unfold App3.add_days_column
  dsimp only
  rw [hc]
  simp only [Bool.not_true, if_neg (Bool.false_ne_true)]
  rw [show @App3.coerce_datetime = @App1.coerce_datetime from rfl]
  unfold effDt at hprod
  unfold daysOf effDt
  by_cases hdty : (getColD df dtc).dtype = Dtype.datetime64 <;>
    simp only [hdty, if_true, if_false, ite_true, ite_false] at hprod ⊢ <;>
    rw [if_neg (by simp [hprod]), if_pos hcc] <;>
    simp [indexOfName, names_filterDays, names_filterDaysB]

/-! ### C10 — the five helpers agree across the three files -/

/-- C10: `normalize_headers`, `detect_sensor_columns`,
`find_datetime_col`, `coerce_datetime` and `coerce_numeric` are
extensionally equal across `excel_cleaner_app.py`,
`excel_cleaner_app_2_like.py` and `streamlit_excel_cleaner_app.py`: on
every input (and every parser/regex oracle) all three versions return
the same result. -/
theorem C10_helpers_extensionally_equal :
    (∀ (α : Type) (toStr : α → String) (columns : List (Option α)),
       App1.normalize_headers toStr columns = App2.normalize_headers toStr columns ∧
       App1.normalize_headers toStr columns = App3.normalize_headers toStr columns) ∧
    (∀ (compile : String → Option (String → Bool)) (df : Frame) (pattern : String),
       App1.detect_sensor_columns compile df pattern =
         App2.detect_sensor_columns compile df pattern ∧
       App1.detect_sensor_columns compile df pattern =
         App3.detect_sensor_columns compile df pattern) ∧
    (∀ (p : DateParser) (df : Frame),
       App1.find_datetime_col p df = App2.find_datetime_col p df ∧
       App1.find_datetime_col p df = App3.find_datetime_col p df) ∧
    (∀ (p : DateParser) (pn : NumParser) (series : Col),
       App1.coerce_datetime p pn series = App2.coerce_datetime p pn series ∧
       App1.coerce_datetime p pn series = App3.coerce_datetime p pn series) ∧
    (∀ (pn : NumParser) (df : Frame) (cols : List String),
       App1.coerce_numeric pn df cols = App2.coerce_numeric pn df cols ∧
       App1.coerce_numeric pn df cols = App3.coerce_numeric pn df cols) := by
  have hc2 : ∀ headers cands, App1.scanCandidates headers cands =
      App2.scanCandidates headers cands := by
    intro headers cands
    induction cands with
    | nil => rfl
    | cons c cs ih =>
      unfold App1.scanCandidates App2.scanCandidates
      rw [ih]
  have hc3 : ∀ headers cands, App1.scanCandidates headers cands =
      App3.scanCandidates headers cands := by
    intro headers cands
    induction cands with
    | nil => rfl
    | cons c cs ih =>
      unfold App1.scanCandidates App3.scanCandidates
      rw [ih]
  have hr2 : ∀ p df hs, App1.scanRatio p df hs = App2.scanRatio p df hs := by
    intro p df hs
    induction hs with
    | nil => rfl
    | cons h hs ih =>
      unfold App1.scanRatio App2.scanRatio
      rw [ih]
  have hr3 : ∀ p df hs, App1.scanRatio p df hs = App3.scanRatio p df hs := by
    intro p df hs
    induction hs with
    | nil => rfl
    | cons h hs ih =>
      unfold App1.scanRatio App3.scanRatio
      rw [ih]
  refine ⟨fun α toStr columns => ⟨rfl, rfl⟩,
          fun compile df pattern => ⟨rfl, rfl⟩,
          fun p df => ⟨?_, ?_⟩,
          fun p pn series => ⟨rfl, rfl⟩,
          fun pn df cols => ⟨rfl, rfl⟩⟩
  · unfold App1.find_datetime_col App2.find_datetime_col
    simp only [show App2.frameHeaders df = App1.frameHeaders df from rfl, ← hc2, ← hr2]
  · unfold App1.find_datetime_col App3.find_datetime_col
    simp only [show App3.frameHeaders df = App1.frameHeaders df from rfl, ← hc3, ← hr3]

/-! ### C8 — invalid sensor patterns surface, valid ones never fail -/

/-- C8: for every pattern string the compile oracle rejects,
`detect_sensor_columns` returns the compilation error before any header
is classified, and for every pattern that compiles it returns (never
raises) the classified header list — in both cited files. -/
theorem C8_pattern_error_propagates :
    ∀ (compile : String → Option (String → Bool)) (df : Frame) (pattern : String),
      (compile pattern = none →
        App1.detect_sensor_columns compile df pattern = Except.error () ∧
        App3.detect_sensor_columns compile df pattern = Except.error ()) ∧
      (∀ rx, compile pattern = some rx →
        App1.detect_sensor_columns compile df pattern =
          Except.ok ((App1.frameHeaders df).filter
            (fun h => !((metaGuess.map pyLower).contains (pyLower h)) && rx h)) ∧
        App3.detect_sensor_columns compile df pattern =
          Except.ok ((App3.frameHeaders df).filter
            (fun h => !((metaGuess.map pyLower).contains (pyLower h)) && rx h))) := by
  intro compile df pattern
  constructor
  · intro h
    unfold App1.detect_sensor_columns App3.detect_sensor_columns
    rw [h]
    exact ⟨rfl, rfl⟩
  · intro rx h
    unfold App1.detect_sensor_columns App3.detect_sensor_columns
    rw [h]
    exact ⟨rfl, rfl⟩

/-- C8 witness: a pattern the oracle cannot compile (here `"("`) yields
the error, and the default pattern on a one-column frame yields a
classification. -/
theorem C8_witness :
    App1.detect_sensor_columns (fun _ => none) [] "(" = Except.error () ∧
    App1.detect_sensor_columns simpleCompile
        [("ALARM_HI", ⟨Dtype.obj, []⟩)] "^(ALARM_|.*_C$)" =
      Except.ok ["ALARM_HI"] := by
  constructor
  · exact ((C8_pattern_error_propagates (fun _ => none) [] "(").1 rfl).1
  · have h := ((C8_pattern_error_propagates simpleCompile
      [("ALARM_HI", ⟨Dtype.obj, []⟩)] "^(ALARM_|.*_C$)").2
      (fun h => List.isPrefixOf "ALARM_".data (pyUpper h).data || List.isPrefixOf "C_".data (pyUpper h).data.reverse) rfl).1
    rw [h]
    rfl

/-! ### C4 — two-stage datetime coercion -/

theorem serialVals?_length :
    ∀ (vs ws : List Value), Pd.serialVals? vs = some ws → ws.length = vs.length := by
  intro vs
  induction vs with
  | nil =>
    intro ws h
    cases h
    rfl
  | cons v vt ih =>
    intro ws h
    unfold Pd.serialVals? at h
    cases hc : Pd.serialCell? v with
    | none =>
      rw [hc] at h
      simp at h
    | some w =>
      rw [hc] at h
      cases hr : Pd.serialVals? vt with
      | none =>
        rw [hr] at h
        simp at h
      | some wt =>
        rw [hr] at h
        simp only [Option.some.injEq] at h
        rw [← h]
        simp [ih wt hr]

/-- C4: `coerce_datetime` preserves the input length; it leaves the
stage-1 text parse untouched when at most half of its results are
missing; it attempts the spreadsheet-serial second pass (origin
1899-12-30) exactly when strictly more than half are missing — when
every serial stays inside the `datetime64[ns]` range the pass fills only
the missing slots of stage 1, and when any serial raises
`OutOfBoundsDatetime` the caught exception abandons the whole pass and
every stage-1-missing slot stays missing; a stage-1 success is never
overwritten in either case.  As a total function of the embedding it
returns a full-length sequence with unparseable cells encoded as
missing, for every input. -/
theorem C4_coerce_datetime_two_stage :
    ∀ (p : DateParser) (pn : NumParser) (series : Col),
      (App1.coerce_datetime p pn series).vals.length = series.vals.length ∧
      (2 * countNa (Pd.toDatetimeCol p series) ≤ series.vals.length →
        App1.coerce_datetime p pn series = Pd.toDatetimeCol p series) ∧
      (∀ s2, 2 * countNa (Pd.toDatetimeCol p series) > series.vals.length →
        Pd.serialToDatetime? (Pd.toNumericCol pn series) = some s2 →
        App1.coerce_datetime p pn series = Pd.fillna (Pd.toDatetimeCol p series) s2) ∧
      (2 * countNa (Pd.toDatetimeCol p series) > series.vals.length →
        Pd.serialToDatetime? (Pd.toNumericCol pn series) = none →
        App1.coerce_datetime p pn series = Pd.toDatetimeCol p series) ∧
      (∀ i v, (Pd.toDatetimeCol p series).vals.get? i = some v → v.isna = false →
        (App1.coerce_datetime p pn series).vals.get? i = some v) := by
  intro p pn series
  have hlen : (Pd.toDatetimeCol p series).vals.length = series.vals.length :=
    length_toDatetimeCol p series
  have hnlen : (Pd.toNumericCol pn series).vals.length = series.vals.length := by
    unfold Pd.toNumericCol
    split <;> simp
  have hs2len : ∀ s2, Pd.serialToDatetime? (Pd.toNumericCol pn series) = some s2 →
      s2.vals.length = series.vals.length := by
    intro s2 h
    unfold Pd.serialToDatetime? at h
    cases hv : Pd.serialVals? (Pd.toNumericCol pn series).vals with
    | none =>
      rw [hv] at h
      simp at h
    | some ws =>
      rw [hv] at h
      simp only [Option.map_some', Option.some.injEq] at h
      rw [← h]
      rw [show (⟨Dtype.datetime64, ws⟩ : Col).vals = ws from rfl]
      rw [serialVals?_length _ _ hv]
      exact hnlen
  have hfill : ∀ (a b : List Value), a.length ≤ b.length → ∀ i v,
      a.get? i = some v → v.isna = false →
      (a.zipWith (fun x y => if x.isna then y else x) b).get? i = some v := by
    intro a
    induction a with
    | nil => intro b _ i v h _; simp at h
    | cons x xs ih =>
      intro b hb i v h hv
      cases b with
      | nil => simp at hb
      | cons y ys =>
        cases i with
        | zero =>
          simp only [List.get?] at h
          cases h
          simp [List.zipWith, hv]
        | succ j =>
          simp only [List.get?] at h
          simpa [List.zipWith] using ih ys (by simpa using hb) j v h hv
  refine ⟨?_, ?_, ?_, ?_, ?_⟩
  · dsimp only [App1.coerce_datetime]
    split
    · split
      · rename_i s2 heq
        have := hs2len s2 heq
        simp [Pd.fillna, hlen, this]
      · exact hlen
    · exact hlen
  · intro h
    dsimp only [App1.coerce_datetime]
    rw [if_neg (by omega)]
  · intro s2 h hser
    dsimp only [App1.coerce_datetime]
    rw [if_pos (by omega), hser]
  · intro h hser
    dsimp only [App1.coerce_datetime]
    rw [if_pos (by omega), hser]
  · intro i v hv hnotna
    dsimp only [App1.coerce_datetime]
    split
    · split
      · rename_i s2 heq
        have hle : (Pd.toDatetimeCol p series).vals.length ≤ s2.vals.length := by
          rw [hlen, hs2len s2 heq]
        simpa [Pd.fillna] using hfill _ _ hle i v hv hnotna
      · exact hv
    · exact hv

/-- C4 witness: on `["44200", "05/03/2021", missing]` stage 1 parses
only the middle value, so 2 of 3 results are missing, the serial second
pass stays inside the `datetime64[ns]` range and fills the first slot
from the number 44200 while keeping the stage-1 success untouched; on
`["999999", "44200"]` the serial 999999 is out of range, so the caught
`OutOfBoundsDatetime` abandons the pass and both slots stay missing. -/
theorem C4_witness :
    (2 * countNa (Pd.toDatetimeCol simpleParseDate
        ⟨Dtype.obj, [Value.vstr "44200", Value.vstr "05/03/2021", Value.vnone]⟩) >
      (⟨Dtype.obj, [Value.vstr "44200", Value.vstr "05/03/2021", Value.vnone]⟩ : Col).vals.length ∧
     App1.coerce_datetime simpleParseDate simpleParseNum
        ⟨Dtype.obj, [Value.vstr "44200", Value.vstr "05/03/2021", Value.vnone]⟩ =
      Pd.fillna
        (Pd.toDatetimeCol simpleParseDate
          ⟨Dtype.obj, [Value.vstr "44200", Value.vstr "05/03/2021", Value.vnone]⟩)
        ⟨Dtype.datetime64, [Value.vtime 1609718400000000000, Value.vnone, Value.vnone]⟩) ∧
    (Pd.serialToDatetime? (Pd.toNumericCol simpleParseNum
        ⟨Dtype.obj, [Value.vstr "999999", Value.vstr "44200"]⟩) = none ∧
     App1.coerce_datetime simpleParseDate simpleParseNum
        ⟨Dtype.obj, [Value.vstr "999999", Value.vstr "44200"]⟩ =
      Pd.toDatetimeCol simpleParseDate
        ⟨Dtype.obj, [Value.vstr "999999", Value.vstr "44200"]⟩) := by
  refine ⟨⟨by decide, ?_⟩, ⟨by decide, ?_⟩⟩
  · exact (C4_coerce_datetime_two_stage simpleParseDate simpleParseNum
      ⟨Dtype.obj, [Value.vstr "44200", Value.vstr "05/03/2021", Value.vnone]⟩).2.2.1
      ⟨Dtype.datetime64, [Value.vtime 1609718400000000000, Value.vnone, Value.vnone]⟩
      (by decide) (by decide)
  · exact (C4_coerce_datetime_two_stage simpleParseDate simpleParseNum
      ⟨Dtype.obj, [Value.vstr "999999", Value.vstr "44200"]⟩).2.2.2.1
      (by decide) (by decide)

/-! ### C2 — the `insert_after` parameter -/

/-- C2 counterexample: on a two-column frame with datetime column
`"Date"` and explicit `insert_after="B"`, `excel_cleaner_app.py`'s
`add_days_column` inserts `Days` right after `Date`, not after `B` — the
explicitly supplied target does not take precedence there.  (The claim
asserts it does in every pipeline implementation.) -/
theorem C2_counterexample :
    names (App1.add_days_column simpleParseDate simpleParseNum c2frame
        (some "Date") (some "B")) = ["Date", "Days", "B"] ∧
    names (App1.add_days_column simpleParseDate simpleParseNum c2frame
        (some "Date") (some "B")) ≠ ["Date", "B", "Days"] := by
  decide

/-- C2 amended: only `streamlit_excel_cleaner_app.py` honours
`insert_after` (a truthy, present target takes precedence over the
datetime column); the other two implementations accept the parameter but
ignore it and always insert `Days` immediately after the datetime
column; when no target is supplied, all three insert immediately after
the datetime column. -/
theorem C2_amended_insert_after (p : DateParser) (pn : NumParser) (df : Frame)
    (dtc ia : String) (hdt : dtc ∈ names df) (hia : ia ∈ names df)
    (hdtD : dtc ≠ "Days") (hiaD : ia ≠ "Days") (hiaE : ia ≠ "")
    (hprod : isnaAllCol (effDt p pn df dtc) = false) :
    names (App3.add_days_column p pn df (some dtc) (some ia)) =
      insertDaysAfter ((names df).filter (fun s => s ≠ "Days")) ia ∧
    names (App1.add_days_column p pn df (some dtc) (some ia)) =
      insertDaysAfter ((names df).filter (fun s => s ≠ "Days")) dtc ∧
    names (App2.add_days_column p pn df (some dtc) (some ia)) =
      names (App1.add_days_column p pn df (some dtc) (some ia)) ∧
    names (App3.add_days_column p pn df (some dtc) none) =
      insertDaysAfter ((names df).filter (fun s => s ≠ "Days")) dtc ∧
    names (App1.add_days_column p pn df (some dtc) none) =
      insertDaysAfter ((names df).filter (fun s => s ≠ "Days")) dtc := by
  refine ⟨?_, ?_, ?_, ?_, ?_⟩
  · rw [add3_shape_target p pn df dtc ia hdt hia hiaD hiaE hprod, names_insertAt,
      names_filterDays, insertDaysAfter]
  · rw [add1_shape p pn df dtc (some ia) hdt hdtD hprod, names_insertAt,
      names_filterDays, names_app1Written, insertDaysAfter]
  · rw [show @App2.add_days_column = @App1.add_days_column from rfl]
  · rw [add3_shape_none p pn df dtc hdt hdtD hprod, names_insertAt,
      names_filterDays, insertDaysAfter]
  · rw [add1_shape p pn df dtc none hdt hdtD hprod, names_insertAt,
      names_filterDays, names_app1Written, insertDaysAfter]

/-- C2 witness: the amended statement evaluated on the concrete
two-column frame. -/
theorem C2_witness :
    names (App3.add_days_column simpleParseDate simpleParseNum c2frame
        (some "Date") (some "B")) =
      insertDaysAfter ((names c2frame).filter (fun s => s ≠ "Days")) "B" ∧
    names (App1.add_days_column simpleParseDate simpleParseNum c2frame
        (some "Date") (some "B")) =
      insertDaysAfter ((names c2frame).filter (fun s => s ≠ "Days")) "Date" :=
  ⟨(C2_amended_insert_after simpleParseDate simpleParseNum c2frame "Date" "B"
      (by decide) (by decide) (by decide) (by decide) (by decide) (by decide)).1,
   (C2_amended_insert_after simpleParseDate simpleParseNum c2frame "Date" "B"
      (by decide) (by decide) (by decide) (by decide) (by decide) (by decide)).2.1⟩

/-! ### C5 — replace semantics of the `Days` column -/

theorem getCol?_getColD (df : Frame) (n : String) (h : n ∈ names df) :
    getCol? df n = some (getColD df n) := by
  obtain ⟨c, hc⟩ := getCol?_eq_some_of_contains df n (contains_of_mem h)
  rw [getColD, hc]
  rfl

theorem filterDays_insertAt_days (df2 : Frame) (idx : Nat) (c : Col)
    (h : ∀ kv ∈ df2, kv.1 ≠ "Days") :
    (insertAt df2 idx ("Days", c)).filter (fun kv => kv.1 ≠ "Days") = df2 := by
  unfold insertAt
  rw [List.filter_append, List.filter_append]
  have h1 : List.filter (fun kv => decide (kv.1 ≠ "Days")) [(("Days" : String), c)] = [] := by
    simp
  rw [h1]
  rw [List.filter_eq_self.mpr (fun a ha => by
    simpa using h a (List.take_subset idx df2 ha))]
  rw [List.filter_eq_self.mpr (fun a ha => by
    simpa using h a (List.drop_subset idx df2 ha))]
  simpa using List.take_append_drop idx df2

theorem countDays_insertAt (df2 : Frame) (idx : Nat) (c : Col)
    (h : ∀ kv ∈ df2, kv.1 ≠ "Days") :
    (names (insertAt df2 idx ("Days", c))).countP (fun s => s = "Days") = 1 := by
  have hn : ∀ a ∈ names df2, a ≠ "Days" := by
    intro a ha
    obtain ⟨kv, hkv, hfst⟩ := List.mem_map.mp ha
    exact hfst ▸ h kv hkv
  rw [names_insertAt]
  rw [List.countP_append, List.countP_append]
  have h1 : ((names df2).take idx).countP (fun s => decide (s = "Days")) = 0 := by
    rw [List.countP_eq_zero]
    intro a ha
    simpa using hn a (List.take_subset idx (names df2) ha)
  have h2 : ((names df2).drop idx).countP (fun s => decide (s = "Days")) = 0 := by
    rw [List.countP_eq_zero]
    intro a ha
    simpa using hn a (List.drop_subset idx (names df2) ha)
  rw [h1, h2]
  simp

/-- C5 counterexample: when the datetime column is itself named
`"Days"`, the first run coerces that column, drops it, and appends the
derived `Days`; the second run then coerces the derived float column as
nanosecond epochs, so the second run's `Days` values differ from the
first run's (`[0, 1]` versus `[0, 1/86400000000000]`). -/
theorem C5_counterexample :
    "Days" ∈ names (App1.add_days_column simpleParseDate simpleParseNum c5frame
        (some "Days") none) ∧
    (getColD (App1.add_days_column simpleParseDate simpleParseNum
        (App1.add_days_column simpleParseDate simpleParseNum c5frame (some "Days") none)
        (some "Days") none) "Days").vals ≠
      (getColD (App1.add_days_column simpleParseDate simpleParseNum c5frame
        (some "Days") none) "Days").vals := by
  decide

/-- C5 amended: for every table whose datetime column is not itself
named `"Days"` and on which `add_days_column` produces a `Days` column,
running `add_days_column` a second time (same datetime column, default
insert target) on the first run's output returns the first run's output
unchanged, and that output holds exactly one `Days` column — in
`excel_cleaner_app.py` and in `streamlit_excel_cleaner_app.py`. -/
theorem C5_amended_idempotent (p : DateParser) (pn : NumParser) (df : Frame) (dtc : String)
    (hnd : (names df).Nodup) (hdt : dtc ∈ names df) (hdtD : dtc ≠ "Days")
    (hprod : isnaAllCol (effDt p pn df dtc) = false) :
    (App1.add_days_column p pn (App1.add_days_column p pn df (some dtc) none)
        (some dtc) none =
      App1.add_days_column p pn df (some dtc) none ∧
     (names (App1.add_days_column p pn df (some dtc) none)).countP
        (fun s => s = "Days") = 1) ∧
    (App3.add_days_column p pn (App3.add_days_column p pn df (some dtc) none)
        (some dtc) none =
      App3.add_days_column p pn df (some dtc) none ∧
     (names (App3.add_days_column p pn df (some dtc) none)).countP
        (fun s => s = "Days") = 1) := by
  have hmemf : dtc ∈ (names df).filter (fun s => s ≠ "Days") :=
    List.mem_filter.mpr ⟨hdt, by simpa using hdtD⟩
  constructor
  · -- excel_cleaner_app.py
    have hshape1 := add1_shape p pn df dtc none hdt hdtD hprod
    have hdfree : ∀ kv ∈ (app1Written p pn df dtc).filter (fun kv => kv.1 ≠ "Days"),
        kv.1 ≠ "Days" := fun kv hkv => by simpa using List.of_mem_filter hkv
    have hgetW : getCol? (app1Written p pn df dtc) dtc = some (effDt p pn df dtc) := by
      unfold app1Written effDt
      by_cases hdty : (getColD df dtc).dtype = Dtype.datetime64
      · rw [if_pos hdty, if_pos hdty]
        exact getCol?_getColD df dtc hdt
      · rw [if_neg hdty, if_neg hdty]
        exact getCol?_setCol_self df dtc _ hdt
    have hget1 : getCol? (App1.add_days_column p pn df (some dtc) none) dtc =
        some (effDt p pn df dtc) := by
      rw [hshape1, getCol?_insertAt_ne _ _ _ _ (Ne.symm hdtD),
        getCol?_filterDays _ _ hdtD]
      exact hgetW
    have hgetD1 : getColD (App1.add_days_column p pn df (some dtc) none) dtc =
        effDt p pn df dtc := by
      rw [getColD, hget1]
      rfl
    have heff1 : effDt p pn (App1.add_days_column p pn df (some dtc) none) dtc =
        effDt p pn df dtc := by
      unfold effDt
      rw [hgetD1, if_pos (dtype_effDt p pn df dtc)]
      exact rfl
    have hprod1 : isnaAllCol (effDt p pn (App1.add_days_column p pn df (some dtc) none) dtc)
        = false := by
      rw [heff1]
      exact hprod
    have hmem2 : dtc ∈ names ((app1Written p pn df dtc).filter (fun kv => kv.1 ≠ "Days")) := by
      rw [names_filterDays, names_app1Written]
      exact hmemf
    have hdt1 : dtc ∈ names (App1.add_days_column p pn df (some dtc) none) := by
      rw [hshape1, names_insertAt]
      have hsplit := List.take_append_drop
        (((names df).filter (fun s => s ≠ "Days")).indexOf dtc + 1)
        (names ((app1Written p pn df dtc).filter (fun kv => kv.1 ≠ "Days")))
      rw [← hsplit] at hmem2
      rcases List.mem_append.mp hmem2 with h | h
      · exact List.mem_append.mpr (Or.inl (List.mem_append.mpr (Or.inl h)))
      · exact List.mem_append.mpr (Or.inr h)
    have hshape2 := add1_shape p pn (App1.add_days_column p pn df (some dtc) none)
      dtc none hdt1 hdtD hprod1
    have hW2 : app1Written p pn (App1.add_days_column p pn df (some dtc) none) dtc =
        App1.add_days_column p pn df (some dtc) none := by
      unfold app1Written
      rw [hgetD1, if_pos (dtype_effDt p pn df dtc)]
    have hfilter2 : (App1.add_days_column p pn df (some dtc) none).filter
        (fun kv => kv.1 ≠ "Days") =
        (app1Written p pn df dtc).filter (fun kv => kv.1 ≠ "Days") := by
      rw [hshape1]
      exact filterDays_insertAt_days _ _ _ hdfree
    have hnames2 : (names (App1.add_days_column p pn df (some dtc) none)).filter
        (fun s => s ≠ "Days") = (names df).filter (fun s => s ≠ "Days") := by
      rw [← names_filterDays, hfilter2, names_filterDays, names_app1Written]
    have hdays2 : daysOf p pn (App1.add_days_column p pn df (some dtc) none) dtc =
        daysOf p pn df dtc := by
      unfold daysOf
      rw [heff1]
    refine ⟨?_, ?_⟩
    · rw [hshape2, hW2, hfilter2, hnames2, hdays2, ← hshape1]
    · rw [hshape1]
      exact countDays_insertAt _ _ _ hdfree
  · -- streamlit_excel_cleaner_app.py
    have hshape1 := add3_shape_none p pn df dtc hdt hdtD hprod
    have hdfree : ∀ kv ∈ df.filter (fun kv => kv.1 ≠ "Days"),
        kv.1 ≠ "Days" := fun kv hkv => by simpa using List.of_mem_filter hkv
    have hget1 : getCol? (App3.add_days_column p pn df (some dtc) none) dtc =
        getCol? df dtc := by
      rw [hshape1, getCol?_insertAt_ne _ _ _ _ (Ne.symm hdtD),
        getCol?_filterDays _ _ hdtD]
    have hgetD1 : getColD (App3.add_days_column p pn df (some dtc) none) dtc =
        getColD df dtc := by
      rw [getColD, hget1]
      rfl
    have heff1 : effDt p pn (App3.add_days_column p pn df (some dtc) none) dtc =
        effDt p pn df dtc := by
      unfold effDt
      rw [hgetD1]
    have hprod1 : isnaAllCol (effDt p pn (App3.add_days_column p pn df (some dtc) none) dtc)
        = false := by
      rw [heff1]
      exact hprod
    have hmem2 : dtc ∈ names (df.filter (fun kv => kv.1 ≠ "Days")) := by
      rw [names_filterDays]
      exact hmemf
    have hdt1 : dtc ∈ names (App3.add_days_column p pn df (some dtc) none) := by
      rw [hshape1, names_insertAt]
      have hsplit := List.take_append_drop
        (((names df).filter (fun s => s ≠ "Days")).indexOf dtc + 1)
        (names (df.filter (fun kv => kv.1 ≠ "Days")))
      rw [← hsplit] at hmem2
      rcases List.mem_append.mp hmem2 with h | h
      · exact List.mem_append.mpr (Or.inl (List.mem_append.mpr (Or.inl h)))
      · exact List.mem_append.mpr (Or.inr h)
    have hshape2 := add3_shape_none p pn (App3.add_days_column p pn df (some dtc) none)
      dtc hdt1 hdtD hprod1
    have hfilter2 : (App3.add_days_column p pn df (some dtc) none).filter
        (fun kv => kv.1 ≠ "Days") = df.filter (fun kv => kv.1 ≠ "Days") := by
      rw [hshape1]
      exact filterDays_insertAt_days _ _ _ hdfree
    have hnames2 : (names (App3.add_days_column p pn df (some dtc) none)).filter
        (fun s => s ≠ "Days") = (names df).filter (fun s => s ≠ "Days") := by
      rw [← names_filterDays, hfilter2, names_filterDays]
    have hdays2 : daysOf p pn (App3.add_days_column p pn df (some dtc) none) dtc =
        daysOf p pn df dtc := by
      unfold daysOf
      rw [heff1]
    refine ⟨?_, ?_⟩
    · rw [hshape2, hfilter2, hnames2, hdays2, ← hshape1]
    · rw [hshape1]
      exact countDays_insertAt _ _ _ hdfree

/-- C5 witness: the amended idempotence evaluated on a concrete
two-column frame with datetime column `"Date"`. -/
theorem C5_witness :
    App1.add_days_column simpleParseDate simpleParseNum
        (App1.add_days_column simpleParseDate simpleParseNum c2frame (some "Date") none)
        (some "Date") none =
      App1.add_days_column simpleParseDate simpleParseNum c2frame (some "Date") none :=
  ((C5_amended_idempotent simpleParseDate simpleParseNum c2frame "Date"
    (by decide) (by decide) (by decide) (by decide)).1).1

/-! ### C9 — streamlit `add_days_column` does not write back -/

/-- C9: when the datetime column is present but not of timestamp dtype,
`streamlit_excel_cleaner_app.py`'s `add_days_column` uses the coerced
values only to derive `Days`: every pre-existing column other than a
removed `Days` column — including the datetime column, which keeps its
raw stored values — reappears unchanged in the returned frame; whereas
the `add_days_column` of the other two files returns a frame whose
datetime column holds the coerced values. -/
theorem C9_no_writeback (p : DateParser) (pn : NumParser) (df : Frame) (dtc : String)
    (ia : Option String) (hnd : (names df).Nodup) (hdt : dtc ∈ names df)
    (hty : (getColD df dtc).dtype ≠ Dtype.datetime64) :
    (∀ n c, (n, c) ∈ df → n ≠ "Days" →
      getCol? (App3.add_days_column p pn df (some dtc) ia) n = some c) ∧
    (dtc ≠ "Days" →
      getCol? (App1.add_days_column p pn df (some dtc) ia) dtc =
        some (App1.coerce_datetime p pn (getColD df dtc)) ∧
      getCol? (App2.add_days_column p pn df (some dtc) ia) dtc =
        some (App1.coerce_datetime p pn (getColD df dtc))) := by
  constructor
  · intro n c hmem hn
    by_cases hpr : isnaAllCol (effDt p pn df dtc) = true
    · rw [add3_of_isnaAll p pn df dtc ia hpr]
      exact getCol?_mem df n c hnd hmem
    · obtain ⟨idx, heq⟩ := add3_shape_any p pn df dtc ia hdt
        (by simpa using hpr)
      rw [heq, getCol?_insertAt_ne _ _ _ _ (Ne.symm hn),
        getCol?_filterDays _ _ hn]
      exact getCol?_mem df n c hnd hmem
  · intro hdtD
    have happ1 : getCol? (App1.add_days_column p pn df (some dtc) ia) dtc =
        some (App1.coerce_datetime p pn (getColD df dtc)) := by
      by_cases hpr : isnaAllCol (effDt p pn df dtc) = true
      · rw [add1_of_isnaAll p pn df dtc ia hdt hpr]
        unfold app1Written
        rw [if_neg hty]
        exact getCol?_setCol_self df dtc _ hdt
      · rw [add1_shape p pn df dtc ia hdt hdtD (by simpa using hpr),
          getCol?_insertAt_ne _ _ _ _ (Ne.symm hdtD), getCol?_filterDays _ _ hdtD]
        unfold app1Written
        rw [if_neg hty]
        exact getCol?_setCol_self df dtc _ hdt
    refine ⟨happ1, ?_⟩
    rw [show @App2.add_days_column = @App1.add_days_column from rfl]
    exact happ1

/-- C9 witness: on the two-column frame, the streamlit version keeps the
raw `"Date"` strings while the `excel_cleaner_app.py` version stores the
coerced column. -/
theorem C9_witness :
    getCol? (App3.add_days_column simpleParseDate simpleParseNum c2frame
        (some "Date") (some "Date")) "Date" =
      some ⟨Dtype.obj, [Value.vstr "01/01/2020"]⟩ ∧
    getCol? (App1.add_days_column simpleParseDate simpleParseNum c2frame
        (some "Date") (some "Date")) "Date" =
      some (App1.coerce_datetime simpleParseDate simpleParseNum (getColD c2frame "Date")) := by
  constructor
  · exact (C9_no_writeback simpleParseDate simpleParseNum c2frame "Date" (some "Date")
      (by decide) (by decide) (by decide)).1 "Date" ⟨Dtype.obj, [Value.vstr "01/01/2020"]⟩
      (by decide) (by decide)
  · exact ((C9_no_writeback simpleParseDate simpleParseNum c2frame "Date" (some "Date")
      (by decide) (by decide) (by decide)).2 (by decide)).1

/-! ### C6 — priority order of datetime-header detection -/

theorem scanCandidates_spec (headers : List String) :
    ∀ (cands : List String) (c0 : String),
      cands.find? (fun c => headers.any (fun hh => pyLower hh = pyLower c)) = some c0 →
      App1.scanCandidates headers cands =
        headers.find? (fun hh => pyLower hh = pyLower c0) ∧
      (App1.scanCandidates headers cands).isSome = true := by
  intro cands
  induction cands with
  | nil => intro c0 h; simp at h
  | cons c cs ih =>
    intro c0 h
    rw [List.find?_cons] at h
    unfold App1.scanCandidates
    cases hfind : headers.find? (fun hh => pyLower hh = pyLower c) with
    | some hh =>
      have hpred : (fun hh => decide (pyLower hh = pyLower c)) hh = true :=
        @List.find?_some String (fun hh => decide (pyLower hh = pyLower c)) hh headers hfind
      have hany : headers.any (fun hh => decide (pyLower hh = pyLower c)) = true :=
        List.any_eq_true.mpr ⟨hh, List.mem_of_find?_eq_some hfind, hpred⟩
      rw [hany] at h
      cases h
      refine ⟨?_, ?_⟩
      · dsimp only
        exact hfind.symm
      · rfl
    | none =>
      have hany : headers.any (fun hh => decide (pyLower hh = pyLower c)) = false := by
        cases hv : headers.any (fun hh => decide (pyLower hh = pyLower c)) with
        | true =>
          obtain ⟨x, hx, hpx⟩ := List.any_eq_true.mp hv
          have := List.find?_eq_none.mp hfind x hx
          simp [hpx] at this
        | false => rfl
      rw [hany] at h
      exact ih c0 h

/-- C6: the preferred path of `find_datetime_col` scans the priority
list `Date/Time, Date Time, Datetime, Timestamp, Date` as the outer
loop and the normalized headers in table order as the inner loop: when
some header matches some candidate, the result is the first header (in
table order) matching the earliest candidate with any match — and the
content-parsing fallback is never consulted (the result is independent
of the parse oracle). -/
theorem C6_priority_scan (p : DateParser) (df : Frame) (c0 : String)
    (h : candidatesList.find?
        (fun c => (App1.frameHeaders df).any (fun hh => pyLower hh = pyLower c)) =
        some c0) :
    App1.find_datetime_col p df =
      (App1.frameHeaders df).find? (fun hh => pyLower hh = pyLower c0) ∧
    ∀ p' : DateParser, App1.find_datetime_col p' df = App1.find_datetime_col p df := by
  obtain ⟨heq, hsome⟩ := scanCandidates_spec (App1.frameHeaders df) candidatesList c0 h
  obtain ⟨hh, hhh⟩ := Option.isSome_iff_exists.mp hsome
  constructor
  · unfold App1.find_datetime_col
    dsimp only
    rw [hhh, ← heq, hhh]
  · intro p'
    unfold App1.find_datetime_col
    dsimp only
    rw [hhh]

/-- C6 witness: with a `Date`-named column ahead of a `Timestamp`-named
column in table order, the priority list makes `Timestamp` win. -/
theorem C6_witness :
    App1.find_datetime_col simpleParseDate c6frame =
      (App1.frameHeaders c6frame).find?
        (fun hh => pyLower hh = pyLower "Timestamp") ∧
    App1.find_datetime_col simpleParseDate c6frame = some "Timestamp" := by
  have h := (C6_priority_scan simpleParseDate c6frame "Timestamp" (by decide)).1
  refine ⟨h, ?_⟩
  rw [h]
  decide

/-! ### C3 — the fallback parse-rate denominator -/

theorem scanRatio_spec (p : DateParser) (df : Frame) :
    ∀ hs : List String, App1.scanRatio p df hs =
      hs.find? (fun h => 10 * countNotNa (Pd.toDatetimeCol p (getColD df h)) >
        7 * (getColD df h).vals.length) := by
  intro hs
  induction hs with
  | nil => rfl
  | cons h t ih =>
    unfold App1.scanRatio
    dsimp only
    rw [List.find?_cons]
    rw [length_toDatetimeCol p (getColD df h)]
    by_cases hc : 10 * countNotNa (Pd.toDatetimeCol p (getColD df h)) >
        7 * (getColD df h).vals.length
    · rw [if_pos hc]
      have : (decide (10 * countNotNa (Pd.toDatetimeCol p (getColD df h)) >
          7 * (getColD df h).vals.length)) = true := by simpa using hc
      rw [this]
    · rw [if_neg hc]
      have : (decide (10 * countNotNa (Pd.toDatetimeCol p (getColD df h)) >
          7 * (getColD df h).vals.length)) = false := by simpa using hc
      rw [this]
      exact ih

theorem scanCandidates_none (headers : List String) :
    ∀ cands, (∀ c ∈ cands, ∀ hh ∈ headers, pyLower hh ≠ pyLower c) →
      App1.scanCandidates headers cands = none := by
  intro cands
  induction cands with
  | nil => intro _; rfl
  | cons c cs ih =>
    intro h
    unfold App1.scanCandidates
    have hf : headers.find? (fun hh => pyLower hh = pyLower c) = none := by
      rw [List.find?_eq_none]
      intro hh hmem
      simpa using h c (List.mem_cons_self c cs) hh hmem
    rw [hf]
    exact ih (fun c' hc' => h c' (List.mem_cons_of_mem c hc'))

/-- C3 counterexample: on a single column of three parseable dates and
two missing cells, the parse-success rate across the non-empty cells is
3/3 = 1 > 0.7, yet `find_datetime_col` returns none, because the code's
ratio (`s.notna().mean()`) divides by the full column length including
the empty cells (3/5 = 0.6). -/
theorem C3_counterexample :
    App1.find_datetime_col simpleParseDate c3frame = none ∧
    countNotNa (Pd.toDatetimeCol simpleParseDate (getColD c3frame "A")) = 3 ∧
    (getColD c3frame "A").vals.countP (fun v => !v.isna) = 3 ∧
    10 * countNotNa (Pd.toDatetimeCol simpleParseDate (getColD c3frame "A")) >
      7 * (getColD c3frame "A").vals.countP (fun v => !v.isna) := by
  decide

/-- C3 amended: when no normalized header case-insensitively equals any
priority candidate, the fallback returns the first column in table order
whose date-parse success count exceeds 0.7 of the column's **total**
length — empty cells stay in the denominator and weigh against the
ratio — and returns none, a valid non-error outcome, when no column
clears that threshold. -/
theorem C3_amended_fallback_rate (p : DateParser) (df : Frame)
    (hnorm : App1.frameHeaders df = names df)
    (hnc : ∀ c ∈ candidatesList, ∀ hh ∈ App1.frameHeaders df, pyLower hh ≠ pyLower c) :
    App1.find_datetime_col p df =
      (names df).find? (fun h => 10 * countNotNa (Pd.toDatetimeCol p (getColD df h)) >
        7 * (getColD df h).vals.length) := by
  unfold App1.find_datetime_col
  dsimp only
  rw [scanCandidates_none _ _ hnc]
  rw [scanRatio_spec, hnorm]

/-- C3 witness: the amended fallback characterization evaluated on the
concrete five-cell column (no column clears the whole-length threshold,
so the scan returns none). -/
theorem C3_witness :
    App1.find_datetime_col simpleParseDate c3frame =
      (names c3frame).find?
        (fun h => 10 * countNotNa (Pd.toDatetimeCol simpleParseDate (getColD c3frame h)) >
          7 * (getColD c3frame h).vals.length) :=
  C3_amended_fallback_rate simpleParseDate c3frame (by decide) (by decide)

/-! ### C1 — the final sort is pandas' default quicksort, not stable -/

set_option maxRecDepth 10000

/-- C1, evaluation at the failing input: seventeen rows with identical
`Date/Time` values and sensor values 0..16 go through the full
`excel_cleaner_app.py` pipeline; the final `sort_values` (default
`kind="quicksort"`, numpy introsort) permutes the equal-key rows into
the order 0,14,13,12,11,10,9,15,8,6,5,4,3,2,1,7,16 instead of
preserving the pre-sort order 0..16 that the claim's stable-sort
reading requires. -/
theorem C1_quicksort_reorders_equal_keys :
    ((App1.pipeline simpleParseDate simpleParseNum simpleCompile c1frame
        "^(ALARM_|.*_C$)" false).toOption.map (fun f => (getColD f "VAL_C").vals) =
      some ([0, 14, 13, 12, 11, 10, 9, 15, 8, 6, 5, 4, 3, 2, 1, 7, 16].map
        (fun n : ℕ => Value.vnum n))) ∧
    ((App1.pipeline simpleParseDate simpleParseNum simpleCompile c1frame
        "^(ALARM_|.*_C$)" false).toOption.map (fun f => (getColD f "VAL_C").vals) ≠
      some ((List.range 17).map (fun n : ℕ => Value.vnum n))) := by
  decide

/-! ### C7 — header normalization: shape and idempotence -/

theorem head?_dropWhile (p : Char → Bool) :
    ∀ (l : List Char) (c : Char), (l.dropWhile p).head? = some c → p c = false := by
  intro l
  induction l with
  | nil => intro c h; simp at h
  | cons a as ih =>
    intro c h
    by_cases hp : p a
    · rw [show (a :: as).dropWhile p = as.dropWhile p by simp [List.dropWhile_cons, hp]] at h
      exact ih c h
    · rw [show (a :: as).dropWhile p = a :: as by simp [List.dropWhile_cons, hp]] at h
      simp only [List.head?_cons, Option.some.injEq] at h
      rw [← h]
      simpa using hp

theorem getLast?_suffix {l1 l2 : List Char} (h : l1 <:+ l2) (hne : l1 ≠ []) :
    l1.getLast? = l2.getLast? := by
  obtain ⟨t, rfl⟩ := h
  exact (List.getLast?_append_of_ne_nil t hne).symm

theorem collapse_spaces :
    ∀ (l : List Char), ∀ c ∈ collapseChars l, pySpace c = true → c = ' ' := by
  intro l
  induction l using collapseChars.induct with
  | case1 => simp [collapseChars]
  | case2 c h =>
    intro x hx _
    simp [collapseChars, h] at hx
    simp [hx]
  | case3 c h =>
    intro x hx hsp
    simp [collapseChars, h] at hx
    rw [hx] at hsp
    exact absurd hsp (by simpa using h)
  | case4 c d cs hc hd ih =>
    intro x hx hsp
    rw [show collapseChars (c :: d :: cs) = collapseChars (d :: cs) by
      simp [collapseChars, hc, hd]] at hx
    exact ih x hx hsp
  | case5 c d cs hc hd ih =>
    intro x hx hsp
    rw [show collapseChars (c :: d :: cs) = ' ' :: collapseChars (d :: cs) by
      simp [collapseChars, hc, hd]] at hx
    rcases List.mem_cons.mp hx with h | h
    · exact h
    · exact ih x h hsp
  | case6 c d cs hc ih =>
    intro x hx hsp
    rw [show collapseChars (c :: d :: cs) = c :: collapseChars (d :: cs) by
      simp [collapseChars, hc]] at hx
    rcases List.mem_cons.mp hx with h | h
    · rw [h] at hsp
      exact absurd hsp (by simpa using hc)
    · exact ih x h hsp

theorem collapse_head (l : List Char) (c : Char) (hh : l.head? = some c)
    (hc : pySpace c = false) : (collapseChars l).head? = some c := by
  cases l with
  | nil => simp at hh
  | cons a as =>
    simp only [List.head?_cons, Option.some.injEq] at hh
    cases hh
    cases as with
    | nil => simp [collapseChars, hc]
    | cons d ds => simp [collapseChars, hc]

theorem collapse_ne_nil : ∀ (l : List Char), l ≠ [] → collapseChars l ≠ [] := by
  intro l
  induction l using collapseChars.induct with
  | case1 => intro h; exact absurd rfl h
  | case2 c h => intro _; simp [collapseChars, h]
  | case3 c h => intro _; simp [collapseChars, h]
  | case4 c d cs hc hd ih =>
    intro _
    rw [show collapseChars (c :: d :: cs) = collapseChars (d :: cs) by
      simp [collapseChars, hc, hd]]
    exact ih (by simp)
  | case5 c d cs hc hd ih =>
    intro _
    simp [collapseChars, hc, hd]
  | case6 c d cs hc ih =>
    intro _
    simp [collapseChars, hc]

theorem collapse_chain :
    ∀ (l : List Char),
      List.Chain' (fun a b => ¬(pySpace a = true ∧ pySpace b = true)) (collapseChars l) := by
  intro l
  induction l using collapseChars.induct with
  | case1 => simp [collapseChars]
  | case2 c h => simp [collapseChars, h]
  | case3 c h => simp [collapseChars, h]
  | case4 c d cs hc hd ih =>
    rw [show collapseChars (c :: d :: cs) = collapseChars (d :: cs) by
      simp [collapseChars, hc, hd]]
    exact ih
  | case5 c d cs hc hd ih =>
    rw [show collapseChars (c :: d :: cs) = ' ' :: collapseChars (d :: cs) by
      simp [collapseChars, hc, hd]]
    rw [List.chain'_cons']
    refine ⟨?_, ih⟩
    intro b hb
    have hbd : (collapseChars (d :: cs)).head? = some d :=
      collapse_head (d :: cs) d (by simp) (by simpa using hd)
    rw [hbd] at hb
    simp only [Option.mem_def, Option.some.injEq] at hb
    rw [← hb]
    intro hcontra
    exact absurd hcontra.2 (by simpa using hd)
  | case6 c d cs hc ih =>
    rw [show collapseChars (c :: d :: cs) = c :: collapseChars (d :: cs) by
      simp [collapseChars, hc]]
    rw [List.chain'_cons']
    refine ⟨?_, ih⟩
    intro b _
    intro hcontra
    exact absurd hcontra.1 (by simpa using hc)

theorem collapse_last :
    ∀ (l : List Char), (∀ c, l.getLast? = some c → pySpace c = false) →
      ∀ c, (collapseChars l).getLast? = some c → pySpace c = false := by
  intro l
  induction l using collapseChars.induct with
  | case1 => intro _ c h; simp [collapseChars] at h
  | case2 a h =>
    intro hl c hcol
    have := hl a (by simp)
    exact absurd h (by simpa using this)
  | case3 a h =>
    intro hl c hcol
    simp [collapseChars, h] at hcol
    rw [← hcol]
    exact hl a (by simp)
  | case4 c d cs hc hd ih =>
    intro hl x hcol
    rw [show collapseChars (c :: d :: cs) = collapseChars (d :: cs) by
      simp [collapseChars, hc, hd]] at hcol
    exact ih (fun y hy => hl y (by simpa using hy)) x hcol
  | case5 c d cs hc hd ih =>
    intro hl x hcol
    rw [show collapseChars (c :: d :: cs) = ' ' :: collapseChars (d :: cs) by
      simp [collapseChars, hc, hd]] at hcol
    have hne : collapseChars (d :: cs) ≠ [] := collapse_ne_nil (d :: cs) (by simp)
    rw [show (' ' :: collapseChars (d :: cs)) = [' '] ++ collapseChars (d :: cs) from rfl,
      List.getLast?_append_of_ne_nil _ hne] at hcol
    exact ih (fun y hy => hl y (by simpa using hy)) x hcol
  | case6 c d cs hc ih =>
    intro hl x hcol
    rw [show collapseChars (c :: d :: cs) = c :: collapseChars (d :: cs) by
      simp [collapseChars, hc]] at hcol
    have hne : collapseChars (d :: cs) ≠ [] := collapse_ne_nil (d :: cs) (by simp)
    rw [show (c :: collapseChars (d :: cs)) = [c] ++ collapseChars (d :: cs) from rfl,
      List.getLast?_append_of_ne_nil _ hne] at hcol
    exact ih (fun y hy => hl y (by simpa using hy)) x hcol

theorem collapse_fix :
    ∀ (l : List Char), (∀ c ∈ l, pySpace c = true → c = ' ') →
      List.Chain' (fun a b => ¬(pySpace a = true ∧ pySpace b = true)) l →
      collapseChars l = l := by
  intro l
  induction l using collapseChars.induct with
  | case1 => intro _ _; rfl
  | case2 c h =>
    intro hsp _
    simp [collapseChars, h]
    exact (hsp c (by simp) h).symm
  | case3 c h =>
    intro _ _
    simp [collapseChars, h]
  | case4 c d cs hc hd ih =>
    intro hsp hch
    exfalso
    have := List.chain'_cons'.mp hch
    exact this.1 d (by simp) ⟨hc, hd⟩
  | case5 c d cs hc hd ih =>
    intro hsp hch
    rw [show collapseChars (c :: d :: cs) = ' ' :: collapseChars (d :: cs) by
      simp [collapseChars, hc, hd]]
    rw [ih (fun x hx => hsp x (List.mem_cons_of_mem c hx)) (List.Chain'.tail hch)]
    rw [hsp c (by simp) hc]
  | case6 c d cs hc ih =>
    intro hsp hch
    rw [show collapseChars (c :: d :: cs) = c :: collapseChars (d :: cs) by
      simp [collapseChars, hc]]
    rw [ih (fun x hx => hsp x (List.mem_cons_of_mem c hx)) (List.Chain'.tail hch)]

theorem strip_head (l : List Char) (c : Char) (h : (stripChars l).head? = some c) :
    pySpace c = false := by
  unfold stripChars at h
  rw [List.head?_reverse] at h
  have hne : (l.dropWhile pySpace).reverse.dropWhile pySpace ≠ [] := by
    intro hz
    rw [hz] at h
    simp at h
  rw [getLast?_suffix (List.dropWhile_suffix pySpace) hne] at h
  rw [List.getLast?_reverse] at h
  exact head?_dropWhile pySpace l c h

theorem strip_last (l : List Char) (c : Char) (h : (stripChars l).getLast? = some c) :
    pySpace c = false := by
  unfold stripChars at h
  rw [List.getLast?_reverse] at h
  exact head?_dropWhile pySpace _ c h

theorem dropWhile_fix (p : Char → Bool) (l : List Char)
    (h : ∀ c, l.head? = some c → p c = false) : l.dropWhile p = l := by
  cases l with
  | nil => rfl
  | cons a as =>
    have := h a (by simp)
    simp [List.dropWhile_cons, this]

theorem strip_fix (l : List Char)
    (hh : ∀ c, l.head? = some c → pySpace c = false)
    (hl : ∀ c, l.getLast? = some c → pySpace c = false) : stripChars l = l := by
  unfold stripChars
  rw [dropWhile_fix pySpace l hh]
  rw [dropWhile_fix pySpace l.reverse (fun c hc => hl c (by
    rw [List.head?_reverse] at hc
    exact hc))]
  exact List.reverse_reverse l

theorem norm_shape (s : String) : NormShape (normString s).data := by
  have hdata : (normString s).data =
      collapseChars (stripChars (s.data.map (fun c => if c = '\n' then ' ' else c))) := rfl
  refine ⟨?_, ?_, ?_, ?_⟩
  · rw [hdata]
    exact collapse_spaces _
  · rw [hdata]
    exact collapse_chain _
  · intro c hc
    rw [hdata] at hc
    cases hm : (stripChars (s.data.map (fun c => if c = '\n' then ' ' else c))).head? with
    | none =>
      have : stripChars (s.data.map (fun c => if c = '\n' then ' ' else c)) = [] := by
        cases hx : stripChars (s.data.map (fun c => if c = '\n' then ' ' else c)) with
        | nil => rfl
        | cons a as => rw [hx] at hm; simp at hm
      rw [this] at hc
      simp [collapseChars] at hc
    | some a =>
      have ha : pySpace a = false := strip_head _ a hm
      rw [collapse_head _ a hm ha] at hc
      cases hc
      exact ha
  · intro c hc
    rw [hdata] at hc
    exact collapse_last _ (fun y hy => strip_last _ y hy) c hc

theorem norm_fix (s : String) (h : NormShape s.data) : normString s = s := by
  obtain ⟨hsp, hch, hhd, hlt⟩ := h
  have hnl : ∀ c ∈ s.data, c ≠ '\n' := by
    intro c hc he
    have : pySpace c = true := by rw [he]; rfl
    have := hsp c hc this
    rw [he] at this
    exact absurd this (by decide)
  unfold normString
  have hmap : s.data.map (fun c => if c = '\n' then ' ' else c) = s.data := by
    conv_rhs => rw [← List.map_id s.data]
    exact List.map_congr_left (fun a ha => by simp [hnl a ha])
  rw [hmap, strip_fix _ hhd hlt, collapse_fix _ hsp hch]

/-- C7: header normalization is idempotent on every label sequence of
every value type (including absent labels), and its output has the same
length and order as the input, with each output string free of
newlines, free of leading and trailing whitespace, and with every
internal whitespace run collapsed to a single plain space. -/
theorem C7_normalize_idempotent :
    ∀ (α : Type) (toStr : α → String) (labels : List (Option α)),
      App1.normalize_headers id ((App1.normalize_headers toStr labels).map some) =
        App1.normalize_headers toStr labels ∧
      (App1.normalize_headers toStr labels).length = labels.length ∧
      ∀ s ∈ App1.normalize_headers toStr labels,
        (∀ c ∈ s.data, c ≠ '\n') ∧
        (∀ c, s.data.head? = some c → pySpace c = false) ∧
        (∀ c, s.data.getLast? = some c → pySpace c = false) ∧
        List.Chain' (fun a b => ¬(pySpace a = true ∧ pySpace b = true)) s.data ∧
        (∀ c ∈ s.data, pySpace c = true → c = ' ') := by
  intro α toStr labels
  have hshape : ∀ s ∈ App1.normalize_headers toStr labels, NormShape s.data := by
    intro s hs
    obtain ⟨lab, _, hlab⟩ := List.mem_map.mp hs
    cases lab with
    | none =>
      rw [← hlab]
      exact ⟨by simp [App1.normalizeLabel], by simp [App1.normalizeLabel],
        by simp [App1.normalizeLabel], by simp [App1.normalizeLabel]⟩
    | some v =>
      rw [← hlab]
      exact norm_shape (toStr v)
  refine ⟨?_, by simp [App1.normalize_headers], ?_⟩
  · unfold App1.normalize_headers
    rw [List.map_map]
    conv_rhs => rw [← List.map_id (labels.map (App1.normalizeLabel toStr))]
    refine List.map_congr_left ?_
    intro s hs
    show App1.normalizeLabel id (some s) = s
    show normString s = s
    exact norm_fix s (hshape s hs)
  · intro s hs
    obtain ⟨hsp, hch, hhd, hlt⟩ := hshape s hs
    refine ⟨?_, hhd, hlt, hch, hsp⟩
    intro c hc he
    have hsp2 : pySpace c = true := by rw [he]; rfl
    have h2 := hsp c hc hsp2
    rw [he] at h2
    exact absurd h2 (by decide)

/-- C7 witness: the idempotence and shape facts evaluated on a concrete
label list with a newline, redundant spaces and an absent label. -/
theorem C7_witness :
    App1.normalize_headers id
        ((App1.normalize_headers id [some "  A\n  B ", none]).map some) =
      App1.normalize_headers id [some "  A\n  B ", none] ∧
    App1.normalize_headers id [some "  A\n  B ", none] = ["A B", ""] := by
  refine ⟨(C7_normalize_idempotent String id [some "  A\n  B ", none]).1, ?_⟩
  decide

end ExcelClean
